import Mathlib

/-!
# fabric8-wit: the simple field type (`workitem/simple_type.go`)

A shallow embedding of `SimpleType` and its conversion functions.

* Go `interface{}` values are the inductive `Value`: one constructor for each
  dynamic type the conversion code inspects by name, and `Value.other` for a
  value of any other dynamic type (it carries its `reflect.Kind`).
* A Go call either returns a value, returns an error, or aborts with a run-time
  panic (a failed unchecked type assertion, a comparison of uncomparable
  interface values).  `Res` has one constructor for each.
* The packages `rendering`, `codebase`, `uuid` and `govalidator` are not part of
  this file; what the conversion code calls in them is a field of `Collab`, and
  the text formatting of `strconv`, `time` and `uuid` is a field of `Formatter`.
* `int` is the 64-bit Go `int`; `float64` values are exact rationals together
  with the IEEE special values.
-/

namespace Workitem

/-! ## Go run-time values -/

/-- The constants of Go `reflect.Kind`. -/
inductive RKind
  | Invalid | Bool | Int | Int8 | Int16 | Int32 | Int64
  | Uint | Uint8 | Uint16 | Uint32 | Uint64 | Uintptr
  | Float32 | Float64 | Complex64 | Complex128
  | Array | Chan | Func | Interface | Map | Ptr | Slice | String | Struct
  | UnsafePointer
deriving DecidableEq, Repr

/-- A `float64`: a finite value is the rational it denotes (`fin 0` is `+0`),
`negZero` is `-0`, then the infinities and NaN.  Every finite `float64` is a
rational, so every `float64` is one of these. -/
inductive F64
  | fin (q : ℚ)
  | negZero
  | inf (neg : Bool)
  | nan
deriving DecidableEq

/-- Go `==` on `float64`: NaN equals nothing, `-0 == +0`. -/
def F64.eq : F64 → F64 → Bool
  | .nan, _ => false
  | _, .nan => false
  | .fin p, .fin q => decide (p = q)
  | .fin p, .negZero => decide (p = 0)
  | .negZero, .fin q => decide (q = 0)
  | .negZero, .negZero => true
  | .inf a, .inf b => a == b
  | _, _ => false

/-- Go `math.Trunc`: the integer part, rounding toward zero; the special values
are returned as they are, and a negative value above `-1` gives `-0`. -/
def F64.Trunc : F64 → F64
  | .fin q =>
    let n := Int.tdiv q.num q.den
    if n = 0 ∧ q < 0 then .negZero else .fin n
  | f => f

/-- Reduce an integer to the range of `int64` (two's complement wrap-around). -/
def wrapInt64 (n : Int) : Int := (n + 2 ^ 63) % 2 ^ 64 - 2 ^ 63

/-- Go conversion `int(f)` / `int64(f)` of a `float64`: the fraction is
discarded; when the value is not representable (out of range, infinite, NaN)
the conversion still succeeds and its result is implementation-dependent,
here `outOfRange f` reduced to 64 bits. -/
def F64.toInt (outOfRange : F64 → Int) : F64 → Int
  | .fin q =>
    let n := Int.tdiv q.num q.den
    if -(2 ^ 63) ≤ n ∧ n < 2 ^ 63 then n else wrapInt64 (outOfRange (.fin q))
  | .negZero => 0
  | f => wrapInt64 (outOfRange f)

/-- A `uuid.UUID` (`[16]byte`), as the 128-bit number its bytes spell. -/
structure UUID where
  val : Nat
deriving DecidableEq, Repr

/-- The constant `uuid.Nil`. -/
def UUID.Nil : UUID := ⟨0⟩

/-- A `*time.Location`, a pointer: the package-level `time.UTC` and
`time.Local`, and any other location, which carries the identity `ptr` of the
pointer next to its name (two zones built separately are two locations, also
under one name). -/
inductive Location
  | UTC
  | Local
  | named (name : String) (ptr : Nat)
deriving DecidableEq, Repr

/-- A `time.Time` without a monotonic clock reading: seconds since the Unix
epoch, nanoseconds within the second (`0 ≤ nsec < 10^9`), and the location. -/
structure Time where
  sec : Int
  nsec : Nat
  loc : Location
deriving DecidableEq, Repr

/-- Go `(time.Time).UnixNano`: `sec * 1e9 + nsec` in `int64` arithmetic. -/
def Time.UnixNano (t : Time) : Int := wrapInt64 (t.sec * 10 ^ 9 + t.nsec)

/-- Go `time.Unix(0, nsec)`: the instant `nsec` nanoseconds after the epoch, in
the local location. -/
def Time.Unix0 (nsec : Int) : Time := ⟨nsec / 10 ^ 9, (nsec % 10 ^ 9).toNat, .Local⟩

/-- The struct `rendering.MarkupContent`: the fields the conversion code reads. -/
structure MarkupContent where
  Content : String
  Markup : String
deriving DecidableEq, Repr

/-- The struct `codebase.Content`: the fields the conversion code reads. -/
structure Content where
  Repository : String
  Branch : String
  FileName : String
  LineNumber : Int
deriving DecidableEq, Repr

/-- A Go `interface{}` value.  `ifaceSlice` is a `[]interface{}`, `ifaceMap` a
`map[string]interface{}` (its entries), and `other kind name cmp data` a value
whose dynamic type is none of the types named by the other constructors: a
defined string type such as `Kind`, an `int32`, a `[]string`, a
`map[string]string`, a pointer, another struct.  `kind` is that type's
`reflect.Kind`, `cmp` says whether Go can compare two such values of a struct
or array type (the type is comparable and the values hold nothing
uncomparable), and `data` identifies the value among those of its type. -/
inductive Value
  | nil
  | str (s : String)
  | int (n : Int)
  | int64 (n : Int)
  | float64 (f : F64)
  | bool (b : Bool)
  | uuid (u : UUID)
  | time (t : Time)
  | markup (m : MarkupContent)
  | codebase (cb : Content)
  | ifaceSlice (xs : List Value)
  | ifaceMap (m : List (String × Value))
  | other (kind : RKind) (name : String) (cmp : Bool) (data : Nat)

/-- The entries of a `map[string]interface{}`. -/
abbrev GoMap := List (String × Value)

/-- Go `value == nil` on an `interface{}`. -/
def Value.isNil : Value → Bool
  | .nil => true
  | _ => false

/-- Go `reflect.TypeOf(value).Kind()` (for a non-nil `value`). -/
def Value.reflectKind : Value → RKind
  | .nil => .Invalid
  | .str _ => .String
  | .int _ => .Int
  | .int64 _ => .Int64
  | .float64 _ => .Float64
  | .bool _ => .Bool
  | .uuid _ => .Array
  | .time _ => .Struct
  | .markup _ => .Struct
  | .codebase _ => .Struct
  | .ifaceSlice _ => .Slice
  | .ifaceMap _ => .Map
  | .other kind _ _ _ => kind

/-! ## Results and errors -/

/-- An `error` value: built by `errs.New`/`errs.Errorf` from a format string,
by `errs.Wrapf` around a cause, or returned by a collaborating package. -/
inductive Err
  | errorf (format : String)
  | wrapf (cause : Err) (format : String)
  | collab (pkg : String)
deriving DecidableEq, Repr

/-- The outcome of a Go call returning `(α, error)`: a value with a nil error,
a non-nil error, or a run-time panic. -/
inductive Res (α : Type)
  | ok (v : α)
  | error (e : Err)
  | panic

/-- The call returned a value and no error. -/
def Res.isOk {α : Type} : Res α → Bool
  | .ok _ => true
  | _ => false

/-- The call returned a non-nil error. -/
def Res.isError {α : Type} : Res α → Bool
  | .error _ => true
  | _ => false

/-! ## Kinds -/

/-- The `Kind` constants named in `simple_type.go`; `other` is any further
value of the string type `Kind`. -/
inductive Kind
  | KindString | KindInteger | KindFloat | KindBoolean | KindInstant
  | KindURL | KindUser | KindIteration | KindArea | KindLabel | KindBoardColumn
  | KindRemoteTracker | KindMarkup | KindCodebase | KindList | KindEnum
  | other (name : String)
deriving DecidableEq, Repr

/-- Modelled from the spec: `Kind.IsSimpleType` (declared in `kinds.go`, which
is not among the sources) is "true for all kinds except composite ones (list,
enum) that require a wrapping type". -/
def Kind.IsSimpleType : Kind → Bool
  | .KindList => false
  | .KindEnum => false
  | _ => true

/-! ## Collaborators -/

/-- What `simple_type.go` calls in other packages.  An `Option` result that is
`none`, and a `Res.panic`, stand for a call that does not return. -/
structure Collab where
  /-- Go `govalidator.IsURL`. -/
  IsURL : String → Bool
  /-- Go `uuid.FromString`. -/
  FromString : String → Except Err UUID
  /-- Go `rendering.IsMarkupSupported`. -/
  IsMarkupSupported : String → Bool
  /-- Go `(rendering.MarkupContent).ToMap`. -/
  MarkupToMap : MarkupContent → GoMap
  /-- Go `rendering.NewMarkupContentFromValue`; `none` is a result whose
  `Markup` field cannot be read. -/
  NewMarkupContentFromValue : Value → Option MarkupContent
  /-- Go `rendering.NewMarkupContentFromMap`. -/
  NewMarkupContentFromMap : GoMap → Option MarkupContent
  /-- Go `(codebase.Content).IsValid`: `none` is a nil error. -/
  IsValid : Content → Option Err
  /-- Go `(codebase.Content).ToMap`. -/
  CodebaseToMap : Content → GoMap
  /-- Go `codebase.NewCodebaseContent`. -/
  NewCodebaseContent : GoMap → Res Content
  /-- The implementation-dependent result of converting an unrepresentable
  `float64` to an integer type. -/
  floatToInt : F64 → Int

/-! ## SimpleType -/

/-- SimpleType is an unstructured FieldType. -/
structure SimpleType where
  Kind : Kind
  DefaultValue : Value

/-- GetKind implements FieldType. -/
def SimpleType.GetKind (t : SimpleType) : Workitem.Kind := t.Kind

/-- GetDefaultValue implements FieldType. -/
def SimpleType.GetDefaultValue (t : SimpleType) : Value := t.DefaultValue

/-- AnyToUUID returns a proper UUID if the given input value is either a string
or a `uuid.UUID`; otherwise an error is returned (the `uuid.Nil` returned next
to the error is dropped). -/
def AnyToUUID (c : Collab) (value : Value) : Res UUID :=
  match value with
  | .uuid v => .ok v
  | .str v =>
    match c.FromString v with
    | .ok u => .ok u
    | .error e => .error e
  | _ => .error (.errorf "value %+v (%[1]T) should be string or uuid")

/-- The `KindInteger` case of `ConvertToModel`. -/
def convertInteger (c : Collab) (value : Value) : Res Value :=
  match value.reflectKind with
  | .Int | .Int64 => .ok value
  | .Float64 =>
    match value with
    | .float64 fval =>
      if !(F64.eq fval fval.Trunc) then
        .error (.errorf "float64 value %+v (%[1]T) has digits after the decimal point and therefore cannot be represented by an integer")
      else .ok (.int (fval.toInt c.floatToInt))
    | _ => .error (.errorf "failed to cast value %+v (%[1]T) to float64")
  | _ => .error (.errorf "value %v (%[1]T) should be %s, but is %s ")

/-- The `KindMarkup` case of `ConvertToModel`. -/
def convertMarkup (c : Collab) (value : Value) : Res Value :=
  match value with
  | .markup markupContent =>
    if !(c.IsMarkupSupported markupContent.Markup) then
      .error (.errorf "value %v (%[1]T) has no valid markup type %s")
    else .ok (.ifaceMap (c.MarkupToMap markupContent))
  | .ifaceMap _ =>
    match c.NewMarkupContentFromValue value with
    | none => .panic
    | some markupContent =>
      if !(c.IsMarkupSupported markupContent.Markup) then
        .error (.errorf "value %v (%[1]T) has no valid markup type %s")
      else .ok (.ifaceMap (c.MarkupToMap markupContent))
  | _ => .error (.errorf "value %v (%[1]T) should be rendering.MarkupContent, but is %s")

/-- The `KindCodebase` case of `ConvertToModel`. -/
def convertCodebase (c : Collab) (value : Value) : Res Value :=
  match value with
  | .codebase cb =>
    match c.IsValid cb with
    | some err => .error (.wrapf err "value %v (%[1]T) is invalid %s")
    | none => .ok (.ifaceMap (c.CodebaseToMap cb))
  | _ => .error (.errorf "value %v (%[1]T) should be %s, but is %s")

/-- ConvertToModel implements the FieldType interface. -/
def SimpleType.ConvertToModel (c : Collab) (t : SimpleType) (value : Value) : Res Value :=
  if value.isNil then .ok .nil
  else
    let valueType := value.reflectKind
    match t.GetKind with
    | .KindString | .KindUser | .KindIteration | .KindArea | .KindLabel | .KindBoardColumn =>
      if valueType ≠ .String then .error (.errorf "value %v (%[1]T) should be %s, but is %s")
      else .ok value
    | .KindRemoteTracker =>
      match AnyToUUID c value with
      | .ok u => .ok (.uuid u)
      | .error e => .error e
      | .panic => .panic
    | .KindURL =>
      if valueType = .String then
        match value with
        | .str s =>
          if c.IsURL s then .ok value
          else .error (.errorf "value %v (%[1]T) should be %s, but is %q")
        | _ => .panic
      else .error (.errorf "value %v (%[1]T) should be %s, but is %q")
    | .KindFloat =>
      if valueType ≠ .Float64 then .error (.errorf "value %v (%[1]T) should be %s, but is %q")
      else .ok value
    | .KindInteger => convertInteger c value
    | .KindInstant =>
      if valueType ≠ .Struct then .error (.errorf "value %v (%[1]T) should be %s, but is %s")
      else
        match value with
        | .time tm => .ok (.int64 tm.UnixNano)
        | _ => .panic
    | .KindList =>
      if valueType ≠ .Array ∧ valueType ≠ .Slice then
        .error (.errorf "value %v (%[1]T) should be %s, but is %s,")
      else .ok value
    | .KindEnum => .ok value
    | .KindMarkup => convertMarkup c value
    | .KindCodebase => convertCodebase c value
    | .KindBoolean =>
      if valueType ≠ .Bool then .error (.errorf "value %v (%[1]T) should be %s, but is %s")
      else .ok value
    | .other _ => .error (.errorf "unexpected type constant: %s")

/-- ConvertFromModel implements the FieldType interface. -/
def SimpleType.ConvertFromModel (c : Collab) (t : SimpleType) (value : Value) : Res Value :=
  if value.isNil then .ok .nil
  else
    let valueType := value.reflectKind
    match t.GetKind with
    | .KindString | .KindURL | .KindUser | .KindInteger | .KindFloat | .KindIteration
    | .KindArea | .KindLabel | .KindBoardColumn | .KindBoolean => .ok value
    | .KindRemoteTracker =>
      match AnyToUUID c value with
      | .ok u => .ok (.uuid u)
      | .error e => .error e
      | .panic => .panic
    | .KindInstant =>
      match valueType with
      | .Float64 =>
        match value with
        | .float64 v =>
          if !(F64.eq v v.Trunc) then .error (.errorf "value %v is not a whole number")
          else .ok (.time (Time.Unix0 (v.toInt c.floatToInt)))
        | _ => .error (.errorf "value %v could not be converted into an %s")
      | .Int64 =>
        match value with
        | .int64 v => .ok (.time (Time.Unix0 v))
        | _ => .error (.errorf "value %v could not be converted into an %s")
      | _ => .error (.errorf "value %v must be either %s or %s but has an unknown type %s")
    | .KindMarkup =>
      if valueType ≠ .Map then .error (.errorf "value %v should be %s, but is %s")
      else
        match value with
        | .ifaceMap m =>
          match c.NewMarkupContentFromMap m with
          | some markupContent => .ok (.markup markupContent)
          | none => .panic
        | _ => .panic
    | .KindCodebase =>
      if valueType ≠ .Map then .error (.errorf "value %v should be %s, but is %s")
      else
        match value with
        | .ifaceMap m =>
          match c.NewCodebaseContent m with
          | .ok cb => .ok (.codebase cb)
          | .error err => .error err
          | .panic => .panic
        | _ => .panic
    | _ => .error (.errorf "unexpected field type: %s")

/-- SetDefaultValue implements FieldType.  The receiver is passed by value: the
result is an updated copy, and an error comes with no type. -/
def SimpleType.SetDefaultValue (c : Collab) (t : SimpleType) (v : Value) : Res SimpleType :=
  if v.isNil then .ok { t with DefaultValue := .nil }
  else
    match t.ConvertToModel c v with
    | .error err => .error (.wrapf err "failed to set default value of simple type to %+v (%[1]T)")
    | .panic => .panic
    | .ok defVal => .ok { t with DefaultValue := defVal }

/-- Validate checks that the default value matches the Kind; `ok ()` is the nil
error. -/
def SimpleType.Validate (c : Collab) (t : SimpleType) : Res Unit :=
  if !t.Kind.IsSimpleType then
    .error (.errorf "a simple type can only have a simple type (e.g. no list or enum)")
  else
    match t.SetDefaultValue c t.DefaultValue with
    | .error err => .error (.wrapf err "failed to validate default value for kind %s: %+v (%[1]T)")
    | .panic => .panic
    | .ok _ => .ok ()

/-- Whether Go may compare two values of the dynamic type of this value with
`==`: slices, maps and functions are not comparable. -/
def Value.comparable : Value → Bool
  | .ifaceSlice _ => false
  | .ifaceMap _ => false
  | .other kind _ cmp _ =>
    match kind with
    | .Slice | .Map | .Func => false
    | .Struct | .Array => cmp
    | _ => true
  | _ => true

/-- Go `==` on two `interface{}` values: equal when the dynamic types are
identical and the values are equal; `none` is the run-time panic raised when
the identical dynamic type is not comparable.  A `time.Time` is compared field
by field, the location as a pointer. -/
def Value.ifaceEq : Value → Value → Option Bool
  | .nil, .nil => some true
  | .str a, .str b => some (decide (a = b))
  | .int a, .int b => some (decide (a = b))
  | .int64 a, .int64 b => some (decide (a = b))
  | .float64 a, .float64 b => some (F64.eq a b)
  | .bool a, .bool b => some (decide (a = b))
  | .uuid a, .uuid b => some (decide (a = b))
  | .time a, .time b => some (decide (a = b))
  | .markup a, .markup b => some (decide (a = b))
  | .codebase a, .codebase b => some (decide (a = b))
  | .ifaceSlice _, .ifaceSlice _ => none
  | .ifaceMap _, .ifaceMap _ => none
  | .other k n cmp d, .other k2 n2 cmp2 d2 =>
    if k = k2 ∧ n = n2 ∧ cmp = cmp2 then
      if (Value.other k n cmp d).comparable then some (decide (d = d2)) else none
    else some false
  | _, _ => some false

/-- A value of the interface `convert.Equaler`, by its dynamic type: a
`SimpleType`, a `*SimpleType`, or any other implementation. -/
inductive Equaler
  | simpleType (t : SimpleType)
  | simpleTypePtr (t : SimpleType)
  | other (name : String)

/-- Equal returns true if two SimpleType objects are equal; otherwise false is
returned.  `none` is a run-time panic. -/
def SimpleType.Equal (t : SimpleType) (u : Equaler) : Option Bool :=
  match u with
  | .simpleType other =>
    match Value.ifaceEq t.DefaultValue other.DefaultValue with
    | none => none
    | some same =>
      if !same then some false
      else some (decide (t.Kind = other.Kind))
  | _ => some false

/-- EqualValue implements convert.Equaler interface. -/
def SimpleType.EqualValue (t : SimpleType) (u : Equaler) : Option Bool := t.Equal u

/-- The interface `FieldType`, as far as `ConvertToModelWithType` calls it. -/
structure FieldType where
  GetKind : Kind
  ConvertToModel : Value → Res Value

/-- A `SimpleType` seen through the interface `FieldType`. -/
def SimpleType.toFieldType (c : Collab) (t : SimpleType) : FieldType :=
  ⟨t.GetKind, t.ConvertToModel c⟩

/-- The last return of `ConvertToModelWithType`. -/
def convertFailed : Res Value :=
  .error (.errorf "failed to convert value %+v (%[1]T) to field type %+v (%[2]T)")

/-- The third attempt of `ConvertToModelWithType`: if the old type is a list but
the new one is not, check that the list contains only one element and assign
that. -/
def unwrapSingle (t : SimpleType) (newFieldType : FieldType) (v : Value) : Res Value :=
  if t.GetKind = .KindList ∧ newFieldType.GetKind ≠ .KindList then
    match v with
    | .ifaceSlice ifArr =>
      match ifArr with
      | [x] =>
        match newFieldType.ConvertToModel x with
        | .ok newVal => .ok newVal
        | .panic => .panic
        | .error _ => convertFailed
      | _ => convertFailed
    | _ => .error (.errorf "failed to convert value to interface array: %+v")
  else convertFailed

/-- ConvertToModelWithType implements FieldType. -/
def SimpleType.ConvertToModelWithType (t : SimpleType) (newFieldType : FieldType)
    (v : Value) : Res Value :=
  match newFieldType.ConvertToModel v with
  | .ok newVal => .ok newVal
  | .panic => .panic
  | .error _ =>
    if newFieldType.GetKind = .KindList then
      match newFieldType.ConvertToModel (.ifaceSlice [v]) with
      | .ok newVal => .ok newVal
      | .panic => .panic
      | .error _ => unwrapSingle t newFieldType v
    else unwrapSingle t newFieldType v

/-! ## ConvertToStringSlice -/

/-- The text formatting `ConvertToStringSlice` calls in the Go library. -/
structure Formatter where
  /-- Go `strconv.Itoa`. -/
  Itoa : Int → String
  /-- Go `strconv.FormatInt(i, 10)`. -/
  FormatInt : Int → String
  /-- Go `strconv.FormatFloat(f, 'f', prec, 64)`, by `f` and `prec`. -/
  FormatFloat : F64 → Nat → String
  /-- Go `(time.Time).Format(time.RFC3339)`. -/
  RFC3339 : Time → String
  /-- Go `(uuid.UUID).String`. -/
  UUIDString : UUID → String

/-- The `KindInteger` case of `ConvertToStringSlice`. -/
def stringsInteger (f : Formatter) (value : Value) : Res (List String) :=
  match value.reflectKind with
  | .Int =>
    match value with
    | .int ival => .ok [f.Itoa ival]
    | _ => .error (.errorf "failed to cast value %+v (%[1]T) to int")
  | .Int64 =>
    match value with
    | .int64 ival => .ok [f.FormatInt ival]
    | _ => .error (.errorf "failed to cast value %+v (%[1]T) to int64")
  | .Float64 =>
    match value with
    | .float64 fval =>
      if !(F64.eq fval fval.Trunc) then
        .error (.errorf "float64 value %+v (%[1]T) has digits after the decimal point and therefore cannot be represented by an integer")
      else .ok [f.FormatFloat fval 0]
    | _ => .error (.errorf "failed to cast value %+v (%[1]T) to float64")
  | _ => .error (.errorf "value %v (%[1]T) should be %s, but is %s ")

/-- The `KindMarkup` case of `ConvertToStringSlice`. -/
def stringsMarkup (c : Collab) (value : Value) : Res (List String) :=
  match value with
  | .markup markupContent =>
    if !(c.IsMarkupSupported markupContent.Markup) then
      .error (.errorf "value %v (%[1]T) has no valid markup type %s")
    else .ok [markupContent.Content]
  | .ifaceMap _ =>
    match c.NewMarkupContentFromValue value with
    | none => .panic
    | some markupContent =>
      if !(c.IsMarkupSupported markupContent.Markup) then
        .error (.errorf "value %v (%[1]T) has no valid markup type %s")
      else .ok [markupContent.Content]
  | _ => .error (.errorf "value %v (%[1]T) should be rendering.MarkupContent, but is %s")

/-- The `KindCodebase` case of `ConvertToStringSlice`. -/
def stringsCodebase (f : Formatter) (c : Collab) (value : Value) : Res (List String) :=
  match value with
  | .codebase cb =>
    match c.IsValid cb with
    | some err => .error (.wrapf err "value %v (%[1]T) is invalid %s")
    | none =>
      .ok [cb.Repository ++ "#" ++ cb.Branch ++ "#" ++ cb.FileName ++ ":" ++ f.Itoa cb.LineNumber]
  | _ => .error (.errorf "value %v (%[1]T) should be %s, but is %s")

/-- ConvertToStringSlice implements the FieldType interface. -/
def SimpleType.ConvertToStringSlice (f : Formatter) (c : Collab) (t : SimpleType)
    (value : Value) : Res (List String) :=
  if value.isNil then .ok [""]
  else
    let valueType := value.reflectKind
    match t.GetKind with
    | .KindString | .KindUser | .KindIteration | .KindArea | .KindLabel | .KindBoardColumn =>
      if valueType ≠ .String then .error (.errorf "value %v (%[1]T) should be %s, but is %s")
      else
        match value with
        | .str s => .ok [s]
        | _ => .panic
    | .KindRemoteTracker =>
      match AnyToUUID c value with
      | .error err => .error err
      | .panic => .panic
      | .ok v => .ok [f.UUIDString v]
    | .KindURL =>
      if valueType = .String then
        match value with
        | .str s =>
          if c.IsURL s then .ok [s]
          else .error (.errorf "value %v (%[1]T) should be %s, but is %q")
        | _ => .panic
      else .error (.errorf "value %v (%[1]T) should be %s, but is %q")
    | .KindFloat =>
      if valueType ≠ .Float64 then .error (.errorf "value %v (%[1]T) should be %s, but is %q")
      else
        match value with
        | .float64 fval => .ok [f.FormatFloat fval 6]
        | _ => .error (.errorf "failed to cast value %+v (%[1]T) to float64")
    | .KindInteger => stringsInteger f value
    | .KindInstant =>
      if valueType ≠ .Struct then .error (.errorf "value %v (%[1]T) should be %s, but is %s")
      else
        match value with
        | .time timeVal => .ok [f.RFC3339 timeVal]
        | _ => .error (.errorf "value should be of type time.Time but is of type %[1]T: %[1]+v")
    | .KindBoolean =>
      if valueType ≠ .Bool then .error (.errorf "value %v (%[1]T) should be %s, but is %s")
      else
        match value with
        | .bool b => if b then .ok ["true"] else .ok ["false"]
        | _ => .panic
    | .KindMarkup => stringsMarkup c value
    | .KindCodebase => stringsCodebase f c value
    | _ => .error (.errorf "unexpected type constant: %s")

/-! ## A concrete collaborator

The statements below hold for every `Collab`.  To evaluate the conversions on
concrete inputs they are instantiated at `sampleCollab`, a small stand-in for
the collaborating packages. -/

/-- The value of a hexadecimal digit. -/
def hexDigit (ch : Char) : Option Nat :=
  if '0'.toNat ≤ ch.toNat ∧ ch.toNat ≤ '9'.toNat then some (ch.toNat - '0'.toNat)
  else if 'a'.toNat ≤ ch.toNat ∧ ch.toNat ≤ 'f'.toNat then some (ch.toNat - 'a'.toNat + 10)
  else if 'A'.toNat ≤ ch.toNat ∧ ch.toNat ≤ 'F'.toNat then some (ch.toNat - 'A'.toNat + 10)
  else none

/-- Read hexadecimal digits with a dash at the positions 8, 13, 18 and 23. -/
def parseDashedHex : Nat → List Char → Nat → Option Nat
  | _, [], acc => some acc
  | i, ch :: rest, acc =>
    if i = 8 ∨ i = 13 ∨ i = 18 ∨ i = 23 then
      if ch = '-' then parseDashedHex (i + 1) rest acc else none
    else
      match hexDigit ch with
      | some d => parseDashedHex (i + 1) rest (16 * acc + d)
      | none => none

/-- Parse the canonical 36-character text of a UUID. -/
def sampleFromString (s : String) : Except Err UUID :=
  if s.data.length ≠ 36 then .error (.collab "uuid")
  else
    match parseDashedHex 0 s.data 0 with
    | some n => .ok ⟨n⟩
    | none => .error (.collab "uuid")

/-- Decode the map written by `sampleCollab.MarkupToMap`. -/
def sampleMarkupFromMap (m : GoMap) : Option MarkupContent :=
  match m.lookup "content", m.lookup "markup" with
  | some (.str content), some (.str markup) => some ⟨content, markup⟩
  | some (.str content), none => some ⟨content, "PlainText"⟩
  | _, _ => none

/-- Decode the map written by `sampleCollab.CodebaseToMap`. -/
def sampleCodebaseFromMap (m : GoMap) : Res Content :=
  match m.lookup "repository", m.lookup "branch", m.lookup "filename", m.lookup "linenumber" with
  | some (.str r), some (.str b), some (.str f), some (.int n) =>
    if r = "" then .error (.collab "codebase") else .ok ⟨r, b, f, n⟩
  | _, _, _, _ => .panic

/-- A concrete collaborator: URLs start with `http://` or `https://`, UUIDs are
read from their canonical text, the markups are `PlainText` and `Markdown`, a
codebase is valid when it names a repository, and an unrepresentable float
converts to the least `int64`. -/
def sampleCollab : Collab where
  IsURL := fun s => "http://".data.isPrefixOf s.data || "https://".data.isPrefixOf s.data
  FromString := sampleFromString
  IsMarkupSupported := fun m => m = "" || m = "PlainText" || m = "Markdown"
  MarkupToMap := fun mc => [("content", .str mc.Content), ("markup", .str mc.Markup)]
  NewMarkupContentFromValue := fun v =>
    match v with
    | .ifaceMap m => sampleMarkupFromMap m
    | .markup mc => some mc
    | _ => none
  NewMarkupContentFromMap := sampleMarkupFromMap
  IsValid := fun cb => if cb.Repository = "" then some (.collab "codebase") else none
  CodebaseToMap := fun cb =>
    [("repository", .str cb.Repository), ("branch", .str cb.Branch),
     ("filename", .str cb.FileName), ("linenumber", .int cb.LineNumber)]
  NewCodebaseContent := sampleCodebaseFromMap
  floatToInt := fun _ => -(2 ^ 63)

/-- A natural number in decimal, padded with zeros to `width` digits. -/
def padded (width n : Nat) : String :=
  let digits := toString n
  String.mk (List.replicate (width - digits.length) '0') ++ digits

/-- The civil date (year, month, day) of a day count since 1970-01-01 in the
proleptic Gregorian calendar. -/
def civilFromDays (days : Int) : Int × Int × Int :=
  let z := days + 719468
  let era := z / 146097
  let doe := z - era * 146097
  let yoe := (doe - doe / 1460 + doe / 36524 - doe / 146096) / 365
  let doy := doe - (365 * yoe + yoe / 4 - yoe / 100)
  let mp := (5 * doy + 2) / 153
  let d := doy - (153 * mp + 2) / 5 + 1
  let m := if mp < 10 then mp + 3 else mp - 9
  let y := yoe + era * 400 + (if m ≤ 2 then 1 else 0)
  (y, m, d)

/-- The RFC 3339 text of a time, every location taken at offset zero. -/
def sampleRFC3339 (t : Time) : String :=
  let (y, m, d) := civilFromDays (t.sec / 86400)
  let s := (t.sec % 86400).toNat
  padded 4 y.toNat ++ "-" ++ padded 2 m.toNat ++ "-" ++ padded 2 d.toNat ++ "T" ++
    padded 2 (s / 3600) ++ ":" ++ padded 2 (s % 3600 / 60) ++ ":" ++ padded 2 (s % 60) ++ "Z"

/-- The quotient `a / b` of naturals rounded to the nearest, ties to even. -/
def roundHalfEven (a b : Nat) : Nat :=
  let n := a / b
  let r := a % b
  if 2 * r < b then n
  else if b < 2 * r then n + 1
  else if n % 2 = 0 then n else n + 1

/-- The decimal text of a float with `prec` digits after the point. -/
def sampleFormatFloat (f : F64) (prec : Nat) : String :=
  let zeros := if prec = 0 then "" else "." ++ String.mk (List.replicate prec '0')
  match f with
  | .nan => "NaN"
  | .inf neg => if neg then "-Inf" else "+Inf"
  | .negZero => "-0" ++ zeros
  | .fin q =>
    let n := roundHalfEven (q.num.natAbs * 10 ^ prec) q.den
    let whole := toString (n / 10 ^ prec)
    let frac := if prec = 0 then "" else "." ++ padded prec (n % 10 ^ prec)
    (if q.num < 0 then "-" else "") ++ whole ++ frac

/-- A concrete formatter: decimal integers, rounded decimal floats, RFC 3339
times at offset zero, and a UUID as its number in decimal. -/
def sampleFormatter : Formatter where
  Itoa := fun n => toString n
  FormatInt := fun n => toString n
  FormatFloat := sampleFormatFloat
  RFC3339 := sampleRFC3339
  UUIDString := fun u => toString u.val

end Workitem

/-! # The comment revisions (`comment` package)

The repository and the revision repository of the package `comment` are not
among the sources; only their black-box test is.  They are modelled from the
specification. -/

namespace comment

/-- Modelled from the spec: the revisable entity (the struct `comment.Comment`,
not among the sources), "identity (unique id), optional parent reference (nil
for top-level), body (rich text + markup kind)", with the owner `ParentID` the
test reads. -/
structure Comment where
  ID : Nat
  ParentID : Nat
  Body : String
  Markup : String
  ParentCommentID : Option Nat
deriving DecidableEq, Repr

/-- Modelled from the spec: the revision type, "Type ∈ {Create, Update,
Delete}" (the constants `comment.RevisionTypeCreate` and so on, not among the
sources). -/
inductive RevisionType
  | RevisionTypeCreate
  | RevisionTypeUpdate
  | RevisionTypeDelete
deriving DecidableEq, Repr

/-- Modelled from the spec: the "immutable append-only record" `Revision`
(not among the sources) with the fields the test reads; body and markup are
"nullable — null for Delete".  The revision id and the timestamp are left
out: the order of the revisions is the order of the list holding them. -/
structure Revision where
  RevType : RevisionType
  CommentID : Nat
  CommentParentID : Nat
  CommentBody : Option String
  CommentMarkup : Option String
  CommentParentCommentID : Option Nat
  ModifierIdentity : Nat
deriving DecidableEq, Repr

/-- Modelled from the spec: the backing store (not among the sources): the
current comments and the revisions in insertion order, oldest first. -/
structure Store where
  comments : List Comment
  revisions : List Revision

/-- Modelled from the spec: `FindByID(id)` of the record store. -/
def Store.find (db : Store) (id : Nat) : Option Comment :=
  db.comments.find? (fun x => x.ID == id)

/-- Modelled from the spec: the Revision Recorder (not among the sources)
"append exactly one immutable Revision row": on create and update the body and
markup are the created or post-update state, on delete "body and markup fields
are explicitly null", and the parent linkage is that of the comment given. -/
def Store.record (db : Store) (typ : RevisionType) (c : Comment) (modifier : Nat) : Store :=
  let content : Option String × Option String :=
    match typ with
    | .RevisionTypeDelete => (none, none)
    | _ => (some c.Body, some c.Markup)
  { db with
    revisions := db.revisions ++
      [⟨typ, c.ID, c.ParentID, content.1, content.2, c.ParentCommentID, modifier⟩] }

/-- Modelled from the spec: `Repository.Create` (not among the sources): the
comment becomes current and a Create revision is recorded.  The identity is
unique: creating an id that is current fails (`none`) and records nothing. -/
def Repository.Create (db : Store) (c : Comment) (creator : Nat) : Option Store :=
  match db.find c.ID with
  | some _ => none
  | none => some (Store.record { db with comments := c :: db.comments } .RevisionTypeCreate c creator)

/-- Modelled from the spec: `Repository.Save` (not among the sources): the
current comment with this id is replaced and an Update revision with the
post-update state is recorded, also when nothing changed.  Saving an id that
is not current fails (`none`) and records nothing. -/
def Repository.Save (db : Store) (c : Comment) (modifier : Nat) : Option Store :=
  match db.find c.ID with
  | none => none
  | some _ =>
    some (Store.record
      { db with comments := db.comments.map (fun x => if x.ID == c.ID then c else x) }
      .RevisionTypeUpdate c modifier)

/-- Modelled from the spec: `Repository.Delete` (not among the sources): the
comment "ceases to be current, but its history remains", and a Delete revision
is recorded whose "parent linkage still reflects the entity's last-known
parent".  Deleting an id that is not current fails (`none`). -/
def Repository.Delete (db : Store) (id : Nat) (modifier : Nat) : Option Store :=
  match db.find id with
  | none => none
  | some c =>
    some (Store.record
      { db with comments := db.comments.filter (fun x => !(x.ID == id)) }
      .RevisionTypeDelete c modifier)

/-- Modelled from the spec: `RevisionRepository.List` (not among the sources):
"all revisions for the entity in strict chronological/insertion order (oldest
first), unfiltered, unpaginated", empty when there is none. -/
def RevisionRepository.List (db : Store) (commentID : Nat) : List Revision :=
  db.revisions.filter (fun r => r.CommentID == commentID)

/-- A run of `Save` calls, each with the comment to store and the modifier. -/
def saveAll (db : Store) : List (Comment × Nat) → Option Store
  | [] => some db
  | (c, j) :: rest =>
    match Repository.Save db c j with
    | none => none
    | some db2 => saveAll db2 rest

/-- The life of one comment: created by `creator`, saved once for each entry
of `updates`, deleted by `deleter`. -/
def lifecycle (db : Store) (c0 : Comment) (creator : Nat) (updates : List (Comment × Nat))
    (deleter : Nat) : Option Store :=
  match Repository.Create db c0 creator with
  | none => none
  | some db1 =>
    match saveAll db1 updates with
    | none => none
    | some db2 => Repository.Delete db2 c0.ID deleter

/-- The comment as last stored: the last update, or the created comment when
there was no update. -/
def lastState (c0 : Comment) : List (Comment × Nat) → Comment
  | [] => c0
  | u :: rest => lastState u.1 rest

end comment

namespace Workitem

/-- An implementation of the interface `FieldType` of Kind List that checks
its elements: it accepts nil and a `[]interface{}` each of whose elements a
`SimpleType` of Kind Integer accepts, and returns an error for every other
value. -/
def integerListTarget (c : Collab) : FieldType where
  GetKind := .KindList
  ConvertToModel := fun v =>
    match v with
    | .nil => .ok .nil
    | .ifaceSlice xs =>
      if xs.all (fun x => (SimpleType.ConvertToModel c ⟨.KindInteger, .nil⟩ x).isOk) then .ok v
      else .error (.errorf "value %v (%[1]T) is not a list of integers")
    | _ => .error (.errorf "value %v (%[1]T) should be %s, but is %s,")

/-- The (Kind, value) pairs on which the round trip through `ConvertToModel`
and `ConvertFromModel` gives the input back: every accepted value of the kinds
String, Float, Boolean and URL; for Integer a value that is not a `float64`;
for RemoteTracker nil or a `uuid.UUID`; for Markup and Codebase nil or a
structured value on which the collaborator decodes what it encoded. -/
def RoundTripInput (c : Collab) : Kind → Value → Prop
  | .KindString, _ => True
  | .KindFloat, _ => True
  | .KindBoolean, _ => True
  | .KindURL, _ => True
  | .KindInteger, v => v.reflectKind ≠ .Float64
  | .KindRemoteTracker, v => v = .nil ∨ ∃ u, v = .uuid u
  | .KindMarkup, v =>
    v = .nil ∨ ∃ mc, v = .markup mc ∧ c.NewMarkupContentFromMap (c.MarkupToMap mc) = some mc
  | .KindCodebase, v =>
    v = .nil ∨ ∃ cb, v = .codebase cb ∧ c.NewCodebaseContent (c.CodebaseToMap cb) = .ok cb
  | _, _ => False

/-! ## Round trip and nil propagation -/

/-- For the kinds whose model value is the external value, `ConvertFromModel`
returns its argument. -/
theorem convertFromModel_passthrough (c : Collab) (k : Kind) (d v : Value)
    (hk : k = .KindString ∨ k = .KindURL ∨ k = .KindUser ∨ k = .KindInteger ∨ k = .KindFloat ∨
      k = .KindIteration ∨ k = .KindArea ∨ k = .KindLabel ∨ k = .KindBoardColumn ∨
      k = .KindBoolean) :
    SimpleType.ConvertFromModel c ⟨k, d⟩ v = .ok v := by
  rcases hk with h | h | h | h | h | h | h | h | h | h <;> subst h <;> cases v <;> rfl

/-- For the kinds String, Float, Boolean and URL an accepted value is its own
model value. -/
theorem convertToModel_unchanged (c : Collab) (k : Kind) (d v m : Value)
    (hk : k = .KindString ∨ k = .KindFloat ∨ k = .KindBoolean ∨ k = .KindURL)
    (h : SimpleType.ConvertToModel c ⟨k, d⟩ v = .ok m) : m = v := by
  rcases hk with hk | hk | hk | hk <;> subst hk <;> cases v <;>
    simp [SimpleType.ConvertToModel, SimpleType.GetKind, Value.isNil, Value.reflectKind] at h <;>
    (try split at h) <;> simp_all

/-- For Kind=Integer an accepted value that is not a `float64` is its own model
value. -/
theorem convertInteger_unchanged (c : Collab) (d v m : Value)
    (hv : v.reflectKind ≠ .Float64)
    (h : SimpleType.ConvertToModel c ⟨.KindInteger, d⟩ v = .ok m) : m = v := by
  cases v <;>
    simp [SimpleType.ConvertToModel, SimpleType.GetKind, Value.isNil, Value.reflectKind,
      convertInteger] at h hv <;>
    (try split at h) <;> simp_all

/-- C1 (as amended): on the inputs of `RoundTripInput`, if `ConvertToModel`
accepts `v` with model value `m`, then `ConvertFromModel m` succeeds and
returns `v`. -/
theorem roundtrip_on_domain (c : Collab) (t : SimpleType) (v m : Value)
    (hdom : RoundTripInput c t.Kind v) (h : t.ConvertToModel c v = .ok m) :
    t.ConvertFromModel c m = .ok v := by
  obtain ⟨k, d⟩ := t
  cases k <;> simp only [RoundTripInput] at hdom
  case KindString =>
    rw [convertToModel_unchanged c _ d v m (by simp) h]
    exact convertFromModel_passthrough c _ d v (by simp)
  case KindFloat =>
    rw [convertToModel_unchanged c _ d v m (by simp) h]
    exact convertFromModel_passthrough c _ d v (by simp)
  case KindBoolean =>
    rw [convertToModel_unchanged c _ d v m (by simp) h]
    exact convertFromModel_passthrough c _ d v (by simp)
  case KindURL =>
    rw [convertToModel_unchanged c _ d v m (by simp) h]
    exact convertFromModel_passthrough c _ d v (by simp)
  case KindInteger =>
    rw [convertInteger_unchanged c d v m hdom h]
    exact convertFromModel_passthrough c _ d v (by simp)
  case KindRemoteTracker =>
    rcases hdom with rfl | ⟨u, rfl⟩
    · simp [SimpleType.ConvertToModel, Value.isNil] at h
      subst h
      rfl
    · simp [SimpleType.ConvertToModel, SimpleType.GetKind, Value.isNil, AnyToUUID] at h
      subst h
      simp [SimpleType.ConvertFromModel, SimpleType.GetKind, Value.isNil, AnyToUUID]
  case KindMarkup =>
    rcases hdom with rfl | ⟨mc, rfl, hmc⟩
    · simp [SimpleType.ConvertToModel, Value.isNil] at h
      subst h
      rfl
    · simp [SimpleType.ConvertToModel, SimpleType.GetKind, Value.isNil, convertMarkup] at h
      split at h <;> simp at h
      subst h
      simp [SimpleType.ConvertFromModel, SimpleType.GetKind, Value.isNil, Value.reflectKind, hmc]
  case KindCodebase =>
    rcases hdom with rfl | ⟨cb, rfl, hcb⟩
    · simp [SimpleType.ConvertToModel, Value.isNil] at h
      subst h
      rfl
    · simp [SimpleType.ConvertToModel, SimpleType.GetKind, Value.isNil, convertCodebase] at h
      split at h <;> simp at h
      subst h
      simp [SimpleType.ConvertFromModel, SimpleType.GetKind, Value.isNil, Value.reflectKind, hcb]

/-- C1, witness: a Markdown markup content survives the round trip. -/
theorem roundtrip_on_domain_witness :
    SimpleType.ConvertFromModel sampleCollab ⟨.KindMarkup, .nil⟩
        (.ifaceMap [("content", .str "hello"), ("markup", .str "Markdown")]) =
      .ok (.markup ⟨"hello", "Markdown"⟩) :=
  roundtrip_on_domain sampleCollab ⟨.KindMarkup, .nil⟩ (.markup ⟨"hello", "Markdown"⟩) _
    (Or.inr ⟨⟨"hello", "Markdown"⟩, rfl, rfl⟩) rfl

/-- C1, counterexample: for Kind=Integer the whole float `3.0` is accepted with
model value the `int` 3, and `ConvertFromModel` returns that `int`, not the
`float64` that was put in; for Kind=RemoteTracker the all-zero text is accepted
with model value `uuid.Nil`, and `ConvertFromModel` returns that UUID, not the
string that was put in. -/
theorem roundtrip_integer_float_counterexample :
    (SimpleType.ConvertToModel sampleCollab ⟨.KindInteger, .nil⟩ (.float64 (.fin 3)) =
        .ok (.int 3) ∧
      SimpleType.ConvertFromModel sampleCollab ⟨.KindInteger, .nil⟩ (.int 3) = .ok (.int 3) ∧
      (Res.ok (Value.int 3) : Res Value) ≠ .ok (.float64 (.fin 3))) ∧
    (SimpleType.ConvertToModel sampleCollab ⟨.KindRemoteTracker, .nil⟩
          (.str "00000000-0000-0000-0000-000000000000") = .ok (.uuid UUID.Nil) ∧
      SimpleType.ConvertFromModel sampleCollab ⟨.KindRemoteTracker, .nil⟩ (.uuid UUID.Nil) =
        .ok (.uuid UUID.Nil) ∧
      (Res.ok (Value.uuid UUID.Nil) : Res Value) ≠
        .ok (.str "00000000-0000-0000-0000-000000000000")) :=
  ⟨⟨rfl, rfl, by simp⟩, ⟨rfl, rfl, by simp⟩⟩

/-- C2: for every Kind, `ConvertToModel(nil)` and `ConvertFromModel(nil)` both
return nil and no error. -/
theorem nil_propagates (c : Collab) (t : SimpleType) :
    t.ConvertToModel c .nil = .ok .nil ∧ t.ConvertFromModel c .nil = .ok .nil :=
  ⟨rfl, rfl⟩

/-! ## Kind=Integer -/

/-- A wrapped integer lies in the range of `int64`. -/
theorem wrapInt64_range (n : Int) : -(2 ^ 63) ≤ wrapInt64 n ∧ wrapInt64 n < 2 ^ 63 := by
  unfold wrapInt64
  have h1 : 0 ≤ (n + 2 ^ 63) % 2 ^ 64 := Int.emod_nonneg _ (by norm_num)
  have h2 : (n + 2 ^ 63) % 2 ^ 64 < 2 ^ 64 := Int.emod_lt_of_pos _ (by norm_num)
  constructor <;> omega

/-- C3 (the failing input): `2^63` is a `float64` with no fractional part, it
passes the test `fval == math.Trunc(fval)`, and for Kind=Integer
`ConvertToModel` returns an `int` for it.  Whatever the platform makes of
`int(fval)`, that `int` is below `2^63`: it is not the integer equal to the
input.  Where an unrepresentable float converts to the least `int64`, the
result is `-2^63`. -/
theorem integer_whole_float_out_of_range (c : Collab) (d : Value) :
    F64.eq (.fin 9223372036854775808) (F64.Trunc (.fin 9223372036854775808)) = true ∧
      (∃ n : Int,
        SimpleType.ConvertToModel c ⟨.KindInteger, d⟩ (.float64 (.fin 9223372036854775808)) =
            .ok (.int n) ∧
          n < 9223372036854775808) ∧
      SimpleType.ConvertToModel sampleCollab ⟨.KindInteger, d⟩
          (.float64 (.fin 9223372036854775808)) = .ok (.int (-9223372036854775808)) := by
  refine ⟨by rfl, ⟨wrapInt64 (c.floatToInt (.fin 9223372036854775808)), by rfl, ?_⟩, by rfl⟩
  have := (wrapInt64_range (c.floatToInt (.fin 9223372036854775808))).2
  norm_num at this ⊢
  exact this

/-- Kind=Integer, what holds: a value of reflect kind `Int` or `Int64` is
returned unchanged; a `float64` equal to an integer `n` of the `int64` range
gives the `int` `n`; a finite `float64` with a fractional part is an error; a
non-nil value of any other reflect kind is an error. -/
theorem convertInteger_cases (c : Collab) (d : Value) :
    (∀ v : Value, v.reflectKind = .Int ∨ v.reflectKind = .Int64 →
        SimpleType.ConvertToModel c ⟨.KindInteger, d⟩ v = .ok v) ∧
      (∀ n : Int, -(2 ^ 63) ≤ n → n < 2 ^ 63 →
        SimpleType.ConvertToModel c ⟨.KindInteger, d⟩ (.float64 (.fin n)) = .ok (.int n)) ∧
      (∀ q : ℚ, q.den ≠ 1 →
        ∃ e, SimpleType.ConvertToModel c ⟨.KindInteger, d⟩ (.float64 (.fin q)) = .error e) ∧
      (∀ v : Value, v.isNil = false → v.reflectKind ≠ .Int → v.reflectKind ≠ .Int64 →
        v.reflectKind ≠ .Float64 →
        ∃ e, SimpleType.ConvertToModel c ⟨.KindInteger, d⟩ v = .error e) := by
  refine ⟨?_, ?_, ?_, ?_⟩
  · intro v hv
    cases v <;>
      simp_all [SimpleType.ConvertToModel, SimpleType.GetKind, Value.isNil, Value.reflectKind,
        convertInteger]
    rcases hv with hv | hv <;> subst hv <;> rfl
  · intro n hlo hhi
    have ht : F64.Trunc (.fin (n : ℚ)) = .fin (n : ℚ) := by
      have hz : ¬ (n = 0 ∧ n < 0) := by omega
      simp [F64.Trunc, hz]
    have hi : F64.toInt c.floatToInt (.fin (n : ℚ)) = n := by
      have hr : -(2 ^ 63) ≤ n ∧ n < 2 ^ 63 := ⟨hlo, hhi⟩
      simp only [F64.toInt, Rat.num_intCast, Rat.den_intCast, Nat.cast_one, Int.tdiv_one]
      rw [if_pos hr]
    simp only [SimpleType.ConvertToModel, SimpleType.GetKind, Value.isNil, Value.reflectKind,
      convertInteger, ht, hi]
    simp [F64.eq]
  · intro q hq
    have hne : ∀ n : Int, q ≠ (n : ℚ) := by
      intro n hn
      apply hq
      rw [hn]
      simp
    have h0 : q ≠ 0 := by
      intro h
      exact hne 0 (by simpa using h)
    have hf : F64.eq (.fin q) (F64.Trunc (.fin q)) = false := by
      by_cases hz : Int.tdiv q.num q.den = 0 ∧ q < 0
      · simp [F64.Trunc, F64.eq, hz, h0]
      · simp [F64.Trunc, F64.eq, hz, hne]
    refine ⟨.errorf "float64 value %+v (%[1]T) has digits after the decimal point and therefore cannot be represented by an integer", ?_⟩
    simp [SimpleType.ConvertToModel, SimpleType.GetKind, Value.isNil, Value.reflectKind,
      convertInteger, hf]
  · intro v hnil h1 h2 h3
    cases v <;>
      simp_all [SimpleType.ConvertToModel, SimpleType.GetKind, Value.isNil, Value.reflectKind,
        convertInteger]

/-! ## Kind=RemoteTracker -/

/-- C4: for Kind=RemoteTracker, given that `uuid.FromString` reads the all-zero
text as `uuid.Nil` and rejects the empty string, `ConvertToModel` returns a
UUID unchanged, returns the UUID parsed from a string, yields `uuid.Nil` on the
all-zero text, fails on the empty string and on every string that does not
parse, and fails on every non-nil value that is neither a string nor a UUID. -/
theorem remoteTracker_convertToModel (c : Collab) (d : Value)
    (hzero : c.FromString "00000000-0000-0000-0000-000000000000" = .ok UUID.Nil)
    (hempty : ∃ e, c.FromString "" = .error e) :
    (∀ u, SimpleType.ConvertToModel c ⟨.KindRemoteTracker, d⟩ (.uuid u) = .ok (.uuid u)) ∧
      (∀ s u, c.FromString s = .ok u →
        SimpleType.ConvertToModel c ⟨.KindRemoteTracker, d⟩ (.str s) = .ok (.uuid u)) ∧
      SimpleType.ConvertToModel c ⟨.KindRemoteTracker, d⟩
          (.str "00000000-0000-0000-0000-000000000000") = .ok (.uuid UUID.Nil) ∧
      (∃ e, SimpleType.ConvertToModel c ⟨.KindRemoteTracker, d⟩ (.str "") = .error e) ∧
      (∀ s e, c.FromString s = .error e →
        SimpleType.ConvertToModel c ⟨.KindRemoteTracker, d⟩ (.str s) = .error e) ∧
      (∀ v : Value, v.isNil = false → (∀ s, v ≠ .str s) → (∀ u, v ≠ .uuid u) →
        ∃ e, SimpleType.ConvertToModel c ⟨.KindRemoteTracker, d⟩ v = .error e) := by
  have hstr : ∀ s, SimpleType.ConvertToModel c ⟨.KindRemoteTracker, d⟩ (.str s) =
      match c.FromString s with
      | .ok u => .ok (.uuid u)
      | .error e => .error e := by
    intro s
    simp only [SimpleType.ConvertToModel, SimpleType.GetKind, Value.isNil, AnyToUUID]
    cases c.FromString s <;> simp
  refine ⟨fun u => rfl, ?_, ?_, ?_, ?_, ?_⟩
  · intro s u h
    rw [hstr, h]
  · rw [hstr, hzero]
  · obtain ⟨e, he⟩ := hempty
    exact ⟨e, by rw [hstr, he]⟩
  · intro s e h
    rw [hstr, h]
  · intro v hnil hs hu
    cases v <;>
      simp_all [SimpleType.ConvertToModel, SimpleType.GetKind, Value.isNil, AnyToUUID]

/-- C4, witness: the sample UUID parser reads the all-zero text as `uuid.Nil`
and rejects the empty string. -/
theorem remoteTracker_convertToModel_witness :
    SimpleType.ConvertToModel sampleCollab ⟨.KindRemoteTracker, .nil⟩
          (.str "00000000-0000-0000-0000-000000000000") = .ok (.uuid UUID.Nil) ∧
      ∃ e, SimpleType.ConvertToModel sampleCollab ⟨.KindRemoteTracker, .nil⟩ (.str "") =
        .error e :=
  let h := remoteTracker_convertToModel sampleCollab .nil rfl ⟨_, rfl⟩
  ⟨h.2.2.1, h.2.2.2.1⟩

/-! ## Default values -/

/-- C6: `SetDefaultValue(nil)` succeeds with the receiver's Kind and a nil
default; for a non-nil `v` it returns the receiver's Kind with the converted
value as default when `ConvertToModel` accepts `v`, returns an error (and no
type) wrapping the conversion error when `ConvertToModel` rejects `v`, and so
succeeds exactly when `ConvertToModel` does. -/
theorem setDefaultValue_spec (c : Collab) (t : SimpleType) :
    t.SetDefaultValue c .nil = .ok ⟨t.Kind, .nil⟩ ∧
      ∀ v : Value, v.isNil = false →
        (∀ m, t.ConvertToModel c v = .ok m → t.SetDefaultValue c v = .ok ⟨t.Kind, m⟩) ∧
        (∀ e, t.ConvertToModel c v = .error e →
          t.SetDefaultValue c v =
            .error (.wrapf e "failed to set default value of simple type to %+v (%[1]T)")) ∧
        (t.SetDefaultValue c v).isOk = (t.ConvertToModel c v).isOk := by
  refine ⟨rfl, ?_⟩
  intro v hv
  refine ⟨?_, ?_, ?_⟩
  · intro m hm
    simp [SimpleType.SetDefaultValue, hv, hm]
  · intro e he
    simp [SimpleType.SetDefaultValue, hv, he]
  · simp only [SimpleType.SetDefaultValue, hv]
    cases t.ConvertToModel c v <;> simp [Res.isOk]

/-- C7: `Validate` returns an error if and only if the Kind is not a simple
kind, or the default value is non-nil and `ConvertToModel` returns an error for
it; the kinds that are not simple are List and Enum; a type of a simple kind
with a nil default validates. -/
theorem validate_error_iff (c : Collab) (t : SimpleType) :
    ((t.Validate c).isError = true ↔
        (t.Kind.IsSimpleType = false ∨
          (t.DefaultValue.isNil = false ∧ (t.ConvertToModel c t.DefaultValue).isError = true))) ∧
      (t.Kind.IsSimpleType = false ↔ (t.Kind = .KindList ∨ t.Kind = .KindEnum)) ∧
      (t.Kind.IsSimpleType = true → t.DefaultValue.isNil = true → t.Validate c = .ok ()) := by
  refine ⟨?_, ?_, ?_⟩
  · by_cases hs : t.Kind.IsSimpleType = true
    · by_cases hn : t.DefaultValue.isNil = true
      · simp [SimpleType.Validate, SimpleType.SetDefaultValue, hs, hn, Res.isError]
      · simp only [SimpleType.Validate, SimpleType.SetDefaultValue, hs, hn]
        cases t.ConvertToModel c t.DefaultValue <;> simp [Res.isError]
    · simp [SimpleType.Validate, hs, Res.isError]
  · cases hk : t.Kind <;> simp [Kind.IsSimpleType]
  · intro hs hn
    simp [SimpleType.Validate, SimpleType.SetDefaultValue, hs, hn]

/-- C5 (the failing inputs): for Kind=Instant, `SetDefaultValue` accepts a
timestamp and stores its nanoseconds as an `int64`; `ConvertToModel` of
Kind=Instant rejects that stored default and `Validate` of the returned type
returns an error.  For Kind=Codebase, `SetDefaultValue` accepts a valid
codebase content and stores its map, and `Validate` of the returned type
returns an error. -/
theorem default_value_fails_validate (c : Collab) :
    SimpleType.SetDefaultValue c ⟨.KindInstant, .nil⟩ (.time ⟨0, 1, .UTC⟩) =
        .ok ⟨.KindInstant, .int64 1⟩ ∧
      (SimpleType.ConvertToModel c ⟨.KindInstant, .int64 1⟩ (.int64 1)).isError = true ∧
      (SimpleType.Validate c ⟨.KindInstant, .int64 1⟩).isError = true ∧
      ∀ cb : Content, c.IsValid cb = none →
        SimpleType.SetDefaultValue c ⟨.KindCodebase, .nil⟩ (.codebase cb) =
            .ok ⟨.KindCodebase, .ifaceMap (c.CodebaseToMap cb)⟩ ∧
          (SimpleType.Validate c ⟨.KindCodebase, .ifaceMap (c.CodebaseToMap cb)⟩).isError =
            true := by
  refine ⟨by rfl, by rfl, by rfl, ?_⟩
  intro cb hcb
  constructor
  · simp [SimpleType.SetDefaultValue, SimpleType.ConvertToModel, SimpleType.GetKind,
      Value.isNil, convertCodebase, hcb]
  · rfl

/-- Outside the kinds Instant, Codebase and Markup, a model value that
`ConvertToModel` returned is accepted again, unchanged. -/
theorem convertToModel_idempotent (c : Collab) (k : Kind) (d d2 v m : Value)
    (hi : k ≠ .KindInstant) (hc : k ≠ .KindCodebase) (hm : k ≠ .KindMarkup)
    (h : SimpleType.ConvertToModel c ⟨k, d⟩ v = .ok m) :
    SimpleType.ConvertToModel c ⟨k, d2⟩ m = .ok m := by
  cases k <;> simp at hi hc hm <;> cases v <;>
    simp [SimpleType.ConvertToModel, SimpleType.GetKind, Value.isNil, Value.reflectKind,
      AnyToUUID, convertInteger] at h <;>
    (try split at h) <;>
    (try simp at h) <;> (try subst h) <;>
    simp_all [SimpleType.ConvertToModel, SimpleType.GetKind, Value.isNil, Value.reflectKind,
      AnyToUUID, convertInteger]

/-- The default-value invariant where it holds: for a simple kind other than
Instant, Codebase and Markup, the default stored by a successful
`SetDefaultValue` is accepted by `ConvertToModel` and the returned type
validates. -/
theorem setDefaultValue_revalidates (c : Collab) (t t2 : SimpleType) (v : Value)
    (hs : t.Kind.IsSimpleType = true) (hi : t.Kind ≠ .KindInstant)
    (hc : t.Kind ≠ .KindCodebase) (hm : t.Kind ≠ .KindMarkup)
    (h : t.SetDefaultValue c v = .ok t2) :
    t2.ConvertToModel c t2.DefaultValue = .ok t2.DefaultValue ∧ t2.Validate c = .ok () := by
  obtain ⟨k, d⟩ := t
  have key : t2.Kind = k ∧ t2.ConvertToModel c t2.DefaultValue = .ok t2.DefaultValue := by
    by_cases hv : v.isNil = true
    · simp [SimpleType.SetDefaultValue, hv] at h
      subst h
      exact ⟨rfl, rfl⟩
    · simp only [SimpleType.SetDefaultValue, hv] at h
      cases hm2 : SimpleType.ConvertToModel c ⟨k, d⟩ v with
      | ok m =>
        simp [hm2] at h
        subst h
        exact ⟨rfl, convertToModel_idempotent c k d m v m hi hc hm hm2⟩
      | error e => simp [hm2] at h
      | panic => simp [hm2] at h
  refine ⟨key.2, ?_⟩
  have hs2 : t2.Kind.IsSimpleType = true := by rw [key.1]; exact hs
  by_cases hn : t2.DefaultValue.isNil = true
  · simp [SimpleType.Validate, SimpleType.SetDefaultValue, hs2, hn]
  · simp [SimpleType.Validate, SimpleType.SetDefaultValue, hs2, hn, key.2]

/-- The default-value invariant on an example: the URL default set on a URL
type is accepted again and the type validates. -/
theorem setDefaultValue_revalidates_witness :
    SimpleType.ConvertToModel sampleCollab ⟨.KindURL, .str "http://example.org"⟩
        (.str "http://example.org") = .ok (.str "http://example.org") ∧
      SimpleType.Validate sampleCollab ⟨.KindURL, .str "http://example.org"⟩ = .ok () :=
  setDefaultValue_revalidates sampleCollab ⟨.KindURL, .nil⟩ ⟨.KindURL, .str "http://example.org"⟩
    (.str "http://example.org") rfl (by decide) (by decide) (by decide) rfl

/-! ## ConvertToModelWithType -/

/-- A `SimpleType` of a simple kind returns an error for every `[]interface{}`. -/
theorem convertToModel_slice_error (c : Collab) (t : SimpleType)
    (hs : t.Kind.IsSimpleType = true) (xs : List Value) :
    ∃ e, t.ConvertToModel c (.ifaceSlice xs) = .error e := by
  obtain ⟨k, d⟩ := t
  cases k <;>
    simp_all [Kind.IsSimpleType, SimpleType.ConvertToModel, SimpleType.GetKind, Value.isNil,
      Value.reflectKind, AnyToUUID, convertInteger, convertMarkup, convertCodebase]

/-- C8 (as amended): for a source of Kind String, a string `s` and any target
of Kind List whose `ConvertToModel` returns an error for `s` itself:
`ConvertToModelWithType(target, s)` returns what the target returns for the
one-element sequence `[s]` when the target accepts it, and fails with an error
when the target returns an error for `[s]` too.  A `SimpleType` target of Kind
List rejects `s`, accepts `[s]` unchanged, and so the result is `[s]`. -/
theorem widen_string_to_list (c : Collab) (d d2 : Value) (s : String) :
    (∀ (target : FieldType) (r : Value), target.GetKind = .KindList →
        (target.ConvertToModel (.str s)).isError = true →
        target.ConvertToModel (.ifaceSlice [.str s]) = .ok r →
        SimpleType.ConvertToModelWithType ⟨.KindString, d⟩ target (.str s) = .ok r) ∧
      (∀ target : FieldType, target.GetKind = .KindList →
        (target.ConvertToModel (.str s)).isError = true →
        (target.ConvertToModel (.ifaceSlice [.str s])).isError = true →
        SimpleType.ConvertToModelWithType ⟨.KindString, d⟩ target (.str s) = convertFailed) ∧
      (SimpleType.ConvertToModel c ⟨.KindList, d2⟩ (.str s)).isError = true ∧
      SimpleType.ConvertToModel c ⟨.KindList, d2⟩ (.ifaceSlice [.str s]) =
        .ok (.ifaceSlice [.str s]) ∧
      SimpleType.ConvertToModelWithType ⟨.KindString, d⟩
          (SimpleType.toFieldType c ⟨.KindList, d2⟩) (.str s) =
        .ok (.ifaceSlice [.str s]) := by
  have h1 : SimpleType.ConvertToModel c ⟨.KindList, d2⟩ (.str s) =
      .error (.errorf "value %v (%[1]T) should be %s, but is %s,") := by
    simp [SimpleType.ConvertToModel, SimpleType.GetKind, Value.isNil, Value.reflectKind]
  have h2 : SimpleType.ConvertToModel c ⟨.KindList, d2⟩ (.ifaceSlice [.str s]) =
      .ok (.ifaceSlice [.str s]) := by
    simp [SimpleType.ConvertToModel, SimpleType.GetKind, Value.isNil, Value.reflectKind]
  refine ⟨?_, ?_, by rw [h1]; rfl, h2, ?_⟩
  · intro target r hk he hr
    cases hv : target.ConvertToModel (.str s) with
    | ok x => rw [hv] at he; simp [Res.isError] at he
    | panic => rw [hv] at he; simp [Res.isError] at he
    | error e => simp [SimpleType.ConvertToModelWithType, hv, hk, hr]
  · intro target hk he he2
    cases hv : target.ConvertToModel (.str s) with
    | ok x => rw [hv] at he; simp [Res.isError] at he
    | panic => rw [hv] at he; simp [Res.isError] at he
    | error e =>
      cases hv2 : target.ConvertToModel (.ifaceSlice [.str s]) with
      | ok x => rw [hv2] at he2; simp [Res.isError] at he2
      | panic => rw [hv2] at he2; simp [Res.isError] at he2
      | error e2 =>
        simp [SimpleType.ConvertToModelWithType, hv, hk, hv2, unwrapSingle, SimpleType.GetKind]
  · simp only [SimpleType.ConvertToModelWithType, SimpleType.toFieldType, h1, h2]
    simp [SimpleType.GetKind]

/-- C8, counterexample: a target of Kind List that checks its elements as
integers returns an error for the string `"abc"` and for the sequence
`["abc"]`, and `ConvertToModelWithType` from a source of Kind String fails
with the error of its last line instead of returning `["abc"]`. -/
theorem widen_string_to_list_counterexample :
    (integerListTarget sampleCollab).GetKind = .KindList ∧
      ((integerListTarget sampleCollab).ConvertToModel (.ifaceSlice [.str "abc"])).isError =
        true ∧
      SimpleType.ConvertToModelWithType ⟨.KindString, .nil⟩ (integerListTarget sampleCollab)
          (.str "abc") =
        .error (.errorf "failed to convert value %+v (%[1]T) to field type %+v (%[2]T)") ∧
      (SimpleType.ConvertToModelWithType ⟨.KindString, .nil⟩ (integerListTarget sampleCollab)
          (.str "abc")).isOk = false :=
  ⟨rfl, rfl, rfl, rfl⟩

/-- C9: for a source of Kind List and a target `SimpleType` of a simple kind, a
one-element sequence `[x]` whose element the target accepts converts to
`target.ConvertToModel(x)`, and a sequence with no element or with two or more
elements returns an error. -/
theorem narrow_list_to_scalar (c : Collab) (d : Value) (target : SimpleType)
    (hs : target.Kind.IsSimpleType = true) :
    (∀ x m, target.ConvertToModel c x = .ok m →
        SimpleType.ConvertToModelWithType ⟨.KindList, d⟩ (target.toFieldType c)
          (.ifaceSlice [x]) = .ok m) ∧
      (∀ xs : List Value, xs.length ≠ 1 →
        SimpleType.ConvertToModelWithType ⟨.KindList, d⟩ (target.toFieldType c)
          (.ifaceSlice xs) = convertFailed) := by
  have hk : target.Kind ≠ .KindList := by
    intro h
    simp [h, Kind.IsSimpleType] at hs
  constructor
  · intro x m hx
    obtain ⟨e, he⟩ := convertToModel_slice_error c target hs [x]
    simp [SimpleType.ConvertToModelWithType, SimpleType.toFieldType, unwrapSingle, he, hk, hx,
      SimpleType.GetKind]
  · intro xs hlen
    obtain ⟨e, he⟩ := convertToModel_slice_error c target hs xs
    simp only [SimpleType.ConvertToModelWithType, SimpleType.toFieldType, unwrapSingle, he, hk,
      SimpleType.GetKind, if_false]
    match xs, hlen with
    | [], _ => simp
    | [_], h => simp at h
    | _ :: _ :: _, _ => simp

/-- C9, witness: a list holding the whole float `3.0` converts to the `int` 3
for an Integer target, and the two-element list fails. -/
theorem narrow_list_to_scalar_witness :
    SimpleType.ConvertToModelWithType ⟨.KindList, .nil⟩
          (SimpleType.toFieldType sampleCollab ⟨.KindInteger, .nil⟩)
          (.ifaceSlice [.float64 (.fin 3)]) = .ok (.int 3) ∧
      SimpleType.ConvertToModelWithType ⟨.KindList, .nil⟩
          (SimpleType.toFieldType sampleCollab ⟨.KindInteger, .nil⟩)
          (.ifaceSlice [.int 1, .int 2]) = convertFailed :=
  let h := narrow_list_to_scalar sampleCollab .nil ⟨.KindInteger, .nil⟩ rfl
  ⟨h.1 (.float64 (.fin 3)) (.int 3) rfl, h.2 [.int 1, .int 2] (by decide)⟩

/-! ## Equal -/

/-- C10 (the failing inputs): `SetDefaultValue` of Kind=Markup stores a
`map[string]interface{}` as default; comparing a type whose default is such a
map with itself does not return (the comparison of two maps panics), and a type
whose default is the float NaN is not equal to itself. -/
theorem equal_not_reflexive (c : Collab) (k : Kind) (m : GoMap) :
    SimpleType.Equal ⟨k, .ifaceMap m⟩ (.simpleType ⟨k, .ifaceMap m⟩) = none ∧
      SimpleType.Equal ⟨k, .float64 .nan⟩ (.simpleType ⟨k, .float64 .nan⟩) = some false ∧
      ∀ mc : MarkupContent, c.IsMarkupSupported mc.Markup = true →
        SimpleType.SetDefaultValue c ⟨.KindMarkup, .nil⟩ (.markup mc) =
          .ok ⟨.KindMarkup, .ifaceMap (c.MarkupToMap mc)⟩ := by
  refine ⟨rfl, rfl, ?_⟩
  intro mc hmc
  simp [SimpleType.SetDefaultValue, SimpleType.ConvertToModel, SimpleType.GetKind, Value.isNil,
    convertMarkup, hmc]

/-- C11 (the failing inputs): two types of the same Kind whose defaults are
maps, or sequences, are compared by `Equal` with a comparison of the two
defaults that does not return; this is so whether the two maps are the same
(the claim says `true`) or differ (the claim says `false`). -/
theorem equal_uncomparable_defaults (k : Kind) (m1 m2 : GoMap) (xs ys : List Value) :
    SimpleType.Equal ⟨k, .ifaceMap m1⟩ (.simpleType ⟨k, .ifaceMap m2⟩) = none ∧
      SimpleType.Equal ⟨k, .ifaceSlice xs⟩ (.simpleType ⟨k, .ifaceSlice ys⟩) = none ∧
      SimpleType.EqualValue ⟨k, .ifaceMap m1⟩ (.simpleType ⟨k, .ifaceMap m1⟩) = none :=
  ⟨rfl, rfl, rfl⟩

/-- Equal, what holds: `Equal` returns true exactly when the comparand is a
`SimpleType` of the same Kind and the Go comparison of the two defaults
returns true; it returns false for a `*SimpleType` and for every other
implementation; whenever the Go comparison of the defaults returns, `Equal`
returns; and `EqualValue` is `Equal`. -/
theorem equal_cases (t : SimpleType) (u : Equaler) :
    (t.Equal u = some true ↔
        ∃ o, u = .simpleType o ∧ t.Kind = o.Kind ∧
          Value.ifaceEq t.DefaultValue o.DefaultValue = some true) ∧
      (∀ p, t.Equal (.simpleTypePtr p) = some false) ∧
      (∀ n, t.Equal (.other n) = some false) ∧
      (∀ o same, Value.ifaceEq t.DefaultValue o.DefaultValue = some same →
        t.Equal (.simpleType o) = some (same && decide (t.Kind = o.Kind))) ∧
      t.EqualValue u = t.Equal u := by
  refine ⟨?_, fun _ => rfl, fun _ => rfl, ?_, rfl⟩
  · cases u with
    | simpleType o =>
      simp only [SimpleType.Equal]
      cases h : Value.ifaceEq t.DefaultValue o.DefaultValue with
      | none => simp [h]
      | some same => cases same <;> simp [h]
    | simpleTypePtr p => simp [SimpleType.Equal]
    | other n => simp [SimpleType.Equal]
  · intro o same h
    simp only [SimpleType.Equal, h]
    cases same <;> simp

/-! ## ConvertToStringSlice -/

/-- C14: for every Kind, `ConvertToStringSlice(nil)` returns the one-element
sequence holding the empty string, and no error. -/
theorem stringSlice_nil (f : Formatter) (c : Collab) (t : SimpleType) :
    t.ConvertToStringSlice f c .nil = .ok [""] :=
  rfl

/-- C16: whenever `ConvertToStringSlice` returns no error, its result is a
sequence of exactly one string. -/
theorem stringSlice_single (f : Formatter) (c : Collab) (t : SimpleType) (v : Value)
    (xs : List String) (h : t.ConvertToStringSlice f c v = .ok xs) : xs.length = 1 := by
  obtain ⟨k, d⟩ := t
  cases k <;> cases v <;>
    simp [SimpleType.ConvertToStringSlice, SimpleType.GetKind, Value.isNil, Value.reflectKind,
      AnyToUUID, stringsInteger, stringsMarkup, stringsCodebase] at h <;>
    (try split at h) <;> (try split at h) <;> (try simp at h) <;> (try subst h) <;>
    rfl

/-- C16, witness: the Boolean `true` gives the one string `"true"`. -/
theorem stringSlice_single_witness :
    SimpleType.ConvertToStringSlice sampleFormatter sampleCollab ⟨.KindBoolean, .nil⟩
        (.bool true) = .ok ["true"] ∧
      (["true"] : List String).length = 1 :=
  ⟨rfl,
    stringSlice_single sampleFormatter sampleCollab ⟨.KindBoolean, .nil⟩ (.bool true) ["true"] rfl⟩

/-- C20: for Kind=List and Kind=Enum, `ConvertToStringSlice` returns the error
of its default case for every non-nil value, while `ConvertToModel` accepts
every value of reflect kind `Slice` or `Array` for List and every value for
Enum, unchanged. -/
theorem stringSlice_list_enum_unsupported (f : Formatter) (c : Collab) (d v : Value) :
    (v.isNil = false →
        SimpleType.ConvertToStringSlice f c ⟨.KindList, d⟩ v =
            .error (.errorf "unexpected type constant: %s") ∧
          SimpleType.ConvertToStringSlice f c ⟨.KindEnum, d⟩ v =
            .error (.errorf "unexpected type constant: %s")) ∧
      (v.reflectKind = .Slice ∨ v.reflectKind = .Array →
        SimpleType.ConvertToModel c ⟨.KindList, d⟩ v = .ok v) ∧
      SimpleType.ConvertToModel c ⟨.KindEnum, d⟩ v = .ok v := by
  refine ⟨?_, ?_, ?_⟩
  · intro hv
    simp [SimpleType.ConvertToStringSlice, SimpleType.GetKind, hv]
  · intro hk
    cases v <;>
      simp_all [SimpleType.ConvertToModel, SimpleType.GetKind, Value.isNil, Value.reflectKind]
    rcases hk with hk | hk <;> simp [hk]
  · cases v <;> rfl

/-! ## The strictly typed kinds -/

/-- C17: for the kinds String, User, Iteration, Area, Label and BoardColumn a
non-nil value of reflect kind `String` is returned unchanged and every other
non-nil value is an error; likewise for Float with reflect kind `Float64` (an
`int` or `int64` is an error) and for Boolean with reflect kind `Bool`. -/
theorem strict_passthrough (c : Collab) (d v : Value) (k : Kind) :
    ((k = .KindString ∨ k = .KindUser ∨ k = .KindIteration ∨ k = .KindArea ∨ k = .KindLabel ∨
          k = .KindBoardColumn) → v.isNil = false →
        (v.reflectKind = .String → SimpleType.ConvertToModel c ⟨k, d⟩ v = .ok v) ∧
        (v.reflectKind ≠ .String → (SimpleType.ConvertToModel c ⟨k, d⟩ v).isError = true)) ∧
      (v.isNil = false →
        (v.reflectKind = .Float64 → SimpleType.ConvertToModel c ⟨.KindFloat, d⟩ v = .ok v) ∧
        (v.reflectKind ≠ .Float64 →
          (SimpleType.ConvertToModel c ⟨.KindFloat, d⟩ v).isError = true)) ∧
      (∀ n : Int, (SimpleType.ConvertToModel c ⟨.KindFloat, d⟩ (.int n)).isError = true ∧
        (SimpleType.ConvertToModel c ⟨.KindFloat, d⟩ (.int64 n)).isError = true) ∧
      (v.isNil = false →
        (v.reflectKind = .Bool → SimpleType.ConvertToModel c ⟨.KindBoolean, d⟩ v = .ok v) ∧
        (v.reflectKind ≠ .Bool →
          (SimpleType.ConvertToModel c ⟨.KindBoolean, d⟩ v).isError = true)) := by
  refine ⟨?_, ?_, fun n => ⟨rfl, rfl⟩, ?_⟩
  · intro hk hv
    rcases hk with h | h | h | h | h | h <;> subst h <;>
      refine ⟨fun hr => ?_, fun hr => ?_⟩ <;>
      simp [SimpleType.ConvertToModel, SimpleType.GetKind, hv, hr, Res.isError]
  · intro hv
    refine ⟨fun hr => ?_, fun hr => ?_⟩ <;>
      simp [SimpleType.ConvertToModel, SimpleType.GetKind, hv, hr, Res.isError]
  · intro hv
    refine ⟨fun hr => ?_, fun hr => ?_⟩ <;>
      simp [SimpleType.ConvertToModel, SimpleType.GetKind, hv, hr, Res.isError]

/-! ## Kind=Instant -/

/-- C18 (the failing inputs): for Kind=Instant a markup content, a codebase
content and every other struct that is not a `time.Time` pass the test on the
reflect kind, and `ConvertToModel` then aborts in `value.(time.Time)`: it
returns neither a value nor an error. -/
theorem instant_struct_panics (c : Collab) (d : Value) (mc : MarkupContent) (cb : Content)
    (name : String) (cmp : Bool) (data : Nat) :
    SimpleType.ConvertToModel c ⟨.KindInstant, d⟩ (.markup mc) = .panic ∧
      SimpleType.ConvertToModel c ⟨.KindInstant, d⟩ (.codebase cb) = .panic ∧
      SimpleType.ConvertToModel c ⟨.KindInstant, d⟩ (.other .Struct name cmp data) = .panic ∧
      (SimpleType.ConvertToStringSlice sampleFormatter c ⟨.KindInstant, d⟩ (.markup mc)).isError =
        true :=
  ⟨rfl, rfl, rfl, rfl⟩

/-- Nanoseconds that fit `int64` are not changed by the wrap-around. -/
theorem wrapInt64_of_range (n : Int) (hlo : -(2 ^ 63) ≤ n) (hhi : n < 2 ^ 63) :
    wrapInt64 n = n := by
  unfold wrapInt64
  rw [Int.emod_eq_of_lt (by omega) (by omega)]
  omega

/-- Kind=Instant, what holds for `ConvertToModel`: a timestamp gives the
`int64` of `UnixNano`, which is its nanoseconds since the epoch when they fit
`int64`; a non-nil value whose reflect kind is not `Struct` is an error. -/
theorem instant_convertToModel_cases (c : Collab) (d : Value) :
    (∀ ts : Time, SimpleType.ConvertToModel c ⟨.KindInstant, d⟩ (.time ts) =
        .ok (.int64 ts.UnixNano)) ∧
      (∀ ts : Time, -(2 ^ 63) ≤ ts.sec * 10 ^ 9 + ts.nsec → ts.sec * 10 ^ 9 + ts.nsec < 2 ^ 63 →
        ts.UnixNano = ts.sec * 10 ^ 9 + ts.nsec) ∧
      (∀ v : Value, v.isNil = false → v.reflectKind ≠ .Struct →
        (SimpleType.ConvertToModel c ⟨.KindInstant, d⟩ v).isError = true) := by
  refine ⟨fun _ => rfl, ?_, ?_⟩
  · intro ts hlo hhi
    exact wrapInt64_of_range _ hlo hhi
  · intro v hv hk
    simp [SimpleType.ConvertToModel, SimpleType.GetKind, hv, hk, Res.isError]

/-- The truncation of a float that is an integer is that float. -/
theorem F64.trunc_intCast (n : Int) : F64.Trunc (.fin (n : ℚ)) = .fin (n : ℚ) := by
  have hz : ¬ (n = 0 ∧ n < 0) := by omega
  simp [F64.Trunc, hz]

/-- A float that is an integer of the `int64` range converts to that integer. -/
theorem F64.toInt_intCast (g : F64 → Int) (n : Int) (hlo : -(2 ^ 63) ≤ n) (hhi : n < 2 ^ 63) :
    F64.toInt g (.fin (n : ℚ)) = n := by
  have hr : -(2 ^ 63) ≤ n ∧ n < 2 ^ 63 := ⟨hlo, hhi⟩
  simp only [F64.toInt, Rat.num_intCast, Rat.den_intCast, Nat.cast_one, Int.tdiv_one]
  rw [if_pos hr]

/-- A finite float with a fractional part differs from its truncation. -/
theorem F64.eq_trunc_of_fraction (q : ℚ) (hq : q.den ≠ 1) :
    F64.eq (.fin q) (F64.Trunc (.fin q)) = false := by
  have hne : ∀ n : Int, q ≠ (n : ℚ) := by
    intro n hn
    apply hq
    rw [hn]
    simp
  have h0 : q ≠ 0 := by
    intro h
    exact hne 0 (by simpa using h)
  by_cases hz : Int.tdiv q.num q.den = 0 ∧ q < 0
  · simp [F64.Trunc, F64.eq, hz, h0]
  · simp [F64.Trunc, F64.eq, hz, hne]

/-- The time `Unix0 n` is `n` nanoseconds after the epoch. -/
theorem Time.unix0_nanos (n : Int) :
    (Time.Unix0 n).sec * 10 ^ 9 + (Time.Unix0 n).nsec = n ∧ (Time.Unix0 n).nsec < 10 ^ 9 := by
  have h1 : (0 : Int) ≤ n % 10 ^ 9 := Int.emod_nonneg _ (by norm_num)
  have h2 : n % 10 ^ 9 < 10 ^ 9 := Int.emod_lt_of_pos _ (by norm_num)
  constructor
  · simp only [Time.Unix0]
    rw [Int.toNat_of_nonneg h1]
    exact Int.ediv_add_emod' n (10 ^ 9)
  · simp only [Time.Unix0]
    have : ((n % 10 ^ 9).toNat : Int) < ((10 ^ 9 : Nat) : Int) := by
      rw [Int.toNat_of_nonneg h1]
      exact_mod_cast h2
    exact_mod_cast this

/-- The time built from the nanoseconds of a time has its seconds and
nanoseconds. -/
theorem Time.unix0_of_parts (sec : Int) (nsec : Nat) (h : nsec < 10 ^ 9) :
    Time.Unix0 (sec * 10 ^ 9 + nsec) = ⟨sec, nsec, .Local⟩ := by
  have hn : (nsec : Int) < 1000000000 := by
    have : nsec < 1000000000 := by norm_num at h; exact h
    exact_mod_cast this
  have hd : (sec * 10 ^ 9 + (nsec : Int)) / 10 ^ 9 = sec := by
    norm_num
    omega
  have hm : (sec * 10 ^ 9 + (nsec : Int)) % 10 ^ 9 = nsec := by
    norm_num
    omega
  simp only [Time.Unix0, hd, hm, Int.toNat_ofNat]

/-- C19 (as amended): for Kind=Instant `ConvertFromModel` returns for an
`int64` `n` the time `n` nanoseconds after the epoch, and the same for a float
equal to an integer `n` of the `int64` range; it returns an error for a finite
float with a fractional part and for every non-nil value that is neither an
`int64` nor a `float64`; and a timestamp whose nanoseconds since the epoch fit
`int64` comes back from `ConvertToModel` and `ConvertFromModel` as the same
instant (in the local location). -/
theorem instant_convertFromModel (c : Collab) (d : Value) :
    (∀ n : Int, SimpleType.ConvertFromModel c ⟨.KindInstant, d⟩ (.int64 n) =
          .ok (.time (Time.Unix0 n)) ∧
        (Time.Unix0 n).sec * 10 ^ 9 + (Time.Unix0 n).nsec = n ∧ (Time.Unix0 n).nsec < 10 ^ 9) ∧
      (∀ n : Int, -(2 ^ 63) ≤ n → n < 2 ^ 63 →
        SimpleType.ConvertFromModel c ⟨.KindInstant, d⟩ (.float64 (.fin n)) =
          .ok (.time (Time.Unix0 n))) ∧
      (∀ q : ℚ, q.den ≠ 1 →
        (SimpleType.ConvertFromModel c ⟨.KindInstant, d⟩ (.float64 (.fin q))).isError = true) ∧
      (∀ v : Value, v.isNil = false → (∀ n, v ≠ .int64 n) → (∀ x, v ≠ .float64 x) →
        (SimpleType.ConvertFromModel c ⟨.KindInstant, d⟩ v).isError = true) ∧
      (∀ ts : Time, ts.nsec < 10 ^ 9 → -(2 ^ 63) ≤ ts.sec * 10 ^ 9 + ts.nsec →
        ts.sec * 10 ^ 9 + ts.nsec < 2 ^ 63 →
        ∃ m, SimpleType.ConvertToModel c ⟨.KindInstant, d⟩ (.time ts) = .ok m ∧
          SimpleType.ConvertFromModel c ⟨.KindInstant, d⟩ m =
            .ok (.time ⟨ts.sec, ts.nsec, .Local⟩)) := by
  refine ⟨fun n => ⟨rfl, Time.unix0_nanos n⟩, ?_, ?_, ?_, ?_⟩
  · intro n hlo hhi
    simp only [SimpleType.ConvertFromModel, SimpleType.GetKind, Value.isNil, Value.reflectKind,
      F64.trunc_intCast, F64.toInt_intCast _ n hlo hhi]
    simp [F64.eq]
  · intro q hq
    simp [SimpleType.ConvertFromModel, SimpleType.GetKind, Value.isNil, Value.reflectKind,
      F64.eq_trunc_of_fraction q hq, Res.isError]
  · intro v hv h1 h2
    cases v
    case other k _ _ _ => cases k <;> rfl
    all_goals
      simp_all [SimpleType.ConvertFromModel, SimpleType.GetKind, Value.isNil, Value.reflectKind,
        Res.isError]
  · intro ts hn hlo hhi
    refine ⟨.int64 ts.UnixNano, rfl, ?_⟩
    have hu : ts.UnixNano = ts.sec * 10 ^ 9 + ts.nsec := wrapInt64_of_range _ hlo hhi
    simp only [SimpleType.ConvertFromModel, SimpleType.GetKind, Value.isNil, Value.reflectKind, hu,
      Time.unix0_of_parts ts.sec ts.nsec hn]
    simp

/-- C19, counterexample: the zero `time.Time` (January 1, year 1, UTC) is
accepted by `ConvertToModel`; its nanoseconds since the epoch do not fit
`int64`, the stored value is `-6795364578871345152`, and `ConvertFromModel`
returns for it an instant in the year 1754, not the instant put in. -/
theorem instant_roundtrip_counterexample :
    SimpleType.ConvertToModel sampleCollab ⟨.KindInstant, .nil⟩
          (.time ⟨-62135596800, 0, .UTC⟩) = .ok (.int64 (-6795364578871345152)) ∧
      SimpleType.ConvertFromModel sampleCollab ⟨.KindInstant, .nil⟩
          (.int64 (-6795364578871345152)) = .ok (.time ⟨-6795364579, 128654848, .Local⟩) ∧
      (-6795364579 : Int) ≠ -62135596800 ∧
      sampleRFC3339 ⟨-6795364579, 128654848, .Local⟩ = "1754-08-30T22:43:41Z" :=
  ⟨by rfl, by rfl, by decide, by rfl⟩

/-! ## ConvertToStringSlice and ConvertToModel -/

/-- C15 (as amended): let `ConvertToModel` accept `v` with model value `m`, for
a Kind other than List and Enum and a `v` whose dynamic type the code names.
Then `ConvertToStringSlice(v)` succeeds with one string.  On the model value,
`ConvertToStringSlice(m)` succeeds for every such Kind except Instant and
Codebase (for Markup provided the collaborator reads its canonical map back as
a supported markup content).  For Instant the text of a timestamp `v` is its
RFC 3339 text, for Integer the text of `m` is its decimal text, for Float the
text of `m` has 6 decimal places. -/
theorem stringSlice_of_accepted (f : Formatter) (c : Collab) (t : SimpleType) (v m : Value)
    (hl : t.Kind ≠ .KindList) (he : t.Kind ≠ .KindEnum)
    (hv : ∀ k n cmp data, v ≠ .other k n cmp data)
    (h : t.ConvertToModel c v = .ok m) :
    (∃ s, t.ConvertToStringSlice f c v = .ok [s]) ∧
      (t.Kind ≠ .KindInstant → t.Kind ≠ .KindCodebase → t.Kind ≠ .KindMarkup →
        ∃ s, t.ConvertToStringSlice f c m = .ok [s]) ∧
      (t.Kind = .KindMarkup →
        (∀ mc, c.IsMarkupSupported mc.Markup = true →
          ∃ mc2, c.NewMarkupContentFromValue (.ifaceMap (c.MarkupToMap mc)) = some mc2 ∧
            c.IsMarkupSupported mc2.Markup = true) →
        ∃ s, t.ConvertToStringSlice f c m = .ok [s]) ∧
      (t.Kind = .KindInstant → ∀ ts, v = .time ts →
        t.ConvertToStringSlice f c v = .ok [f.RFC3339 ts]) ∧
      (t.Kind = .KindInteger →
        (∀ n, m = .int n → t.ConvertToStringSlice f c m = .ok [f.Itoa n]) ∧
        (∀ n, m = .int64 n → t.ConvertToStringSlice f c m = .ok [f.FormatInt n])) ∧
      (t.Kind = .KindFloat → ∀ x, m = .float64 x →
        t.ConvertToStringSlice f c m = .ok [f.FormatFloat x 6]) := by
  obtain ⟨k, d⟩ := t
  refine ⟨?_, ?_, ?_, ?_, ?_, ?_⟩
  · cases v
    case other k2 n cm da => exact absurd rfl (hv k2 n cm da)
    all_goals
      clear hv
      cases k <;> simp at hl he <;>
        simp [SimpleType.ConvertToModel, SimpleType.GetKind, Value.isNil, Value.reflectKind,
          AnyToUUID, convertInteger, convertMarkup, convertCodebase] at h <;>
        simp [SimpleType.ConvertToStringSlice, SimpleType.GetKind, Value.isNil,
          Value.reflectKind, AnyToUUID, stringsInteger, stringsMarkup, stringsCodebase] <;>
        (try split at h) <;> (try split at h) <;> (try simp_all) <;> (try split) <;>
        (try simp)
  · intro hi hc hm
    cases v
    case other k2 n cm da => exact absurd rfl (hv k2 n cm da)
    all_goals
      clear hv
      cases k <;> simp at hl he hi hc hm <;>
        simp [SimpleType.ConvertToModel, SimpleType.GetKind, Value.isNil, Value.reflectKind,
          AnyToUUID, convertInteger] at h <;>
        (try split at h) <;> (try simp at h) <;> (try subst h) <;>
        (try simp_all [SimpleType.ConvertToStringSlice, SimpleType.GetKind, Value.isNil,
          Value.reflectKind, AnyToUUID, stringsInteger]) <;>
        (try split) <;> (try simp)
  · intro hk hcanon
    simp only at hk
    subst hk
    cases v <;>
      simp [SimpleType.ConvertToModel, SimpleType.GetKind, Value.isNil, convertMarkup] at h
    case nil =>
      subst h
      exact ⟨"", rfl⟩
    case markup mc =>
      split at h <;> simp at h
      subst h
      rename_i hsup
      obtain ⟨mc2, h1, h2⟩ := hcanon mc (by simpa using hsup)
      exact ⟨mc2.Content, by
        simp [SimpleType.ConvertToStringSlice, SimpleType.GetKind, Value.isNil, stringsMarkup,
          h1, h2]⟩
    case ifaceMap mm =>
      split at h
      · simp at h
      · rename_i mc hmc
        split at h <;> simp at h
        subst h
        rename_i hsup
        obtain ⟨mc2, h1, h2⟩ := hcanon mc (by simpa using hsup)
        exact ⟨mc2.Content, by
          simp [SimpleType.ConvertToStringSlice, SimpleType.GetKind, Value.isNil, stringsMarkup,
            h1, h2]⟩
  · intro hk ts hts
    simp only at hk
    subst hk hts
    rfl
  · intro hk
    simp only at hk
    subst hk
    exact ⟨fun n hn => by subst hn; rfl, fun n hn => by subst hn; rfl⟩
  · intro hk x hx
    simp only at hk
    subst hk hx
    rfl

/-- C15, witness: for Kind=Integer the whole float `3.0` is accepted with model
value the `int` 3, whose text is `"3"`. -/
theorem stringSlice_of_accepted_witness :
    SimpleType.ConvertToStringSlice sampleFormatter sampleCollab ⟨.KindInteger, .nil⟩ (.int 3) =
      .ok ["3"] :=
  ((stringSlice_of_accepted sampleFormatter sampleCollab ⟨.KindInteger, .nil⟩
    (.float64 (.fin 3)) (.int 3) (by decide) (by decide) (by intro k n cmp data h; cases h)
    rfl).2.2.2.2.1 rfl).1 3 rfl

/-- C15, counterexample: for Kind=Instant a timestamp is accepted with model
value the `int64` 1, and `ConvertToStringSlice` of that model value is an
error; for Kind=Codebase a valid content is accepted with its map as model
value, and `ConvertToStringSlice` of that map is an error. -/
theorem stringSlice_model_value_counterexample :
    SimpleType.ConvertToModel sampleCollab ⟨.KindInstant, .nil⟩ (.time ⟨0, 1, .UTC⟩) =
        .ok (.int64 1) ∧
      SimpleType.ConvertToStringSlice sampleFormatter sampleCollab ⟨.KindInstant, .nil⟩
          (.int64 1) =
        .error (.errorf "value %v (%[1]T) should be %s, but is %s") ∧
      SimpleType.ConvertToModel sampleCollab ⟨.KindCodebase, .nil⟩
          (.codebase ⟨"git://repo", "main", "a.go", 7⟩) =
        .ok (.ifaceMap [("repository", .str "git://repo"), ("branch", .str "main"),
          ("filename", .str "a.go"), ("linenumber", .int 7)]) ∧
      SimpleType.ConvertToStringSlice sampleFormatter sampleCollab ⟨.KindCodebase, .nil⟩
          (.ifaceMap [("repository", .str "git://repo"), ("branch", .str "main"),
            ("filename", .str "a.go"), ("linenumber", .int 7)]) =
        .error (.errorf "value %v (%[1]T) should be %s, but is %s") :=
  ⟨by rfl, by rfl, by rfl, by rfl⟩

end Workitem

namespace comment

/-! ## The revisions of a comment -/

/-- After replacing the current comment of an id, that id finds the new
comment. -/
theorem find_replace (cs : List Comment) (c : Comment)
    (h : (cs.find? (fun x => x.ID == c.ID)).isSome = true) :
    (cs.map (fun x => if x.ID == c.ID then c else x)).find? (fun x => x.ID == c.ID) = some c := by
  induction cs with
  | nil => simp at h
  | cons x rest ih =>
    by_cases hx : x.ID = c.ID
    · simp [List.find?, hx]
    · have hx2 : (x.ID == c.ID) = false := by simpa using hx
      simp only [List.find?, hx2] at h
      simp only [List.map_cons, hx2, Bool.false_eq_true, if_false, List.find?]
      exact ih h

/-- A successful `Save` appends the Update revision of the comment saved and
makes that comment current. -/
theorem save_spec (db : Store) (c cur : Comment) (j : Nat) (h : db.find c.ID = some cur) :
    ∃ db2, Repository.Save db c j = some db2 ∧
      db2.revisions = db.revisions ++
        [⟨.RevisionTypeUpdate, c.ID, c.ParentID, some c.Body, some c.Markup, c.ParentCommentID,
          j⟩] ∧
      db2.find c.ID = some c := by
  refine ⟨Store.record
      { db with comments := db.comments.map (fun x => if x.ID == c.ID then c else x) }
      .RevisionTypeUpdate c j, by simp [Repository.Save, h], by simp [Store.record], ?_⟩
  simp only [Store.find, Store.record]
  apply find_replace
  simp only [Store.find] at h
  simp [h]

/-- A run of saves of one current comment appends one Update revision for each
save, in order, and leaves the last comment saved current. -/
theorem saveAll_spec (id : Nat) (updates : List (Comment × Nat)) :
    ∀ (db : Store) (cur : Comment), db.find id = some cur →
      (∀ u ∈ updates, u.1.ID = id) →
      ∃ db2, saveAll db updates = some db2 ∧
        db2.revisions = db.revisions ++ updates.map (fun u =>
          ⟨.RevisionTypeUpdate, id, u.1.ParentID, some u.1.Body, some u.1.Markup,
            u.1.ParentCommentID, u.2⟩) ∧
        db2.find id = some (lastState cur updates) := by
  induction updates with
  | nil =>
    intro db cur h _
    exact ⟨db, rfl, by simp, h⟩
  | cons u rest ih =>
    intro db cur h hid
    obtain ⟨c, j⟩ := u
    have hc : c.ID = id := hid (c, j) (by simp)
    subst hc
    obtain ⟨db2, h1, h2, h3⟩ := save_spec db c cur j h
    obtain ⟨db3, g1, g2, g3⟩ := ih db2 c h3 (fun u hu => hid u (by simp [hu]))
    refine ⟨db3, by simp [saveAll, h1, g1], ?_, by simpa [lastState] using g3⟩
    rw [g2, h2]
    simp

/-- The life of a comment whose id is not current: the run succeeds and appends
to the revisions one Create revision, one Update revision for each save, and
one Delete revision with no body and no markup. -/
theorem lifecycle_spec (db : Store) (c0 : Comment) (i0 : Nat) (updates : List (Comment × Nat))
    (d : Nat) (hcur : db.find c0.ID = none) (hid : ∀ u ∈ updates, u.1.ID = c0.ID) :
    ∃ db2, lifecycle db c0 i0 updates d = some db2 ∧
      db2.revisions = db.revisions ++
        (⟨.RevisionTypeCreate, c0.ID, c0.ParentID, some c0.Body, some c0.Markup,
            c0.ParentCommentID, i0⟩ ::
          updates.map (fun u =>
            ⟨.RevisionTypeUpdate, c0.ID, u.1.ParentID, some u.1.Body, some u.1.Markup,
              u.1.ParentCommentID, u.2⟩) ++
          [⟨.RevisionTypeDelete, c0.ID, (lastState c0 updates).ParentID, none, none,
            (lastState c0 updates).ParentCommentID, d⟩]) := by
  have hfind : (Store.record { db with comments := c0 :: db.comments } .RevisionTypeCreate c0
      i0).find c0.ID = some c0 := by
    simp [Store.find, Store.record, List.find?]
  obtain ⟨db2, g1, g2, g3⟩ := saveAll_spec c0.ID updates _ c0 hfind hid
  have hlast : (lastState c0 updates).ID = c0.ID := by
    have : ∀ (us : List (Comment × Nat)) (c : Comment), c.ID = c0.ID →
        (∀ u ∈ us, u.1.ID = c0.ID) → (lastState c us).ID = c0.ID := by
      intro us
      induction us with
      | nil => intro c hc _; simpa [lastState] using hc
      | cons u rest ih =>
        intro c _ hus
        simp only [lastState]
        exact ih u.1 (hus u (by simp)) (fun w hw => hus w (by simp [hw]))
    exact this updates c0 rfl hid
  refine ⟨Store.record
      { db2 with comments := db2.comments.filter (fun x => !(x.ID == c0.ID)) }
      .RevisionTypeDelete (lastState c0 updates) d,
    by simp [lifecycle, Repository.Create, hcur, g1, Repository.Delete, g3], ?_⟩
  simp [Store.record, g2, hlast]

/-- The comment last stored is the created comment or one of the updates. -/
theorem lastState_cases (us : List (Comment × Nat)) :
    ∀ c0 : Comment, (us = [] ∧ lastState c0 us = c0) ∨ ∃ u ∈ us, lastState c0 us = u.1 := by
  induction us with
  | nil => intro c0; exact Or.inl ⟨rfl, rfl⟩
  | cons u rest ih =>
    intro c0
    right
    rcases ih u.1 with ⟨hnil, h⟩ | ⟨w, hw, h⟩
    · exact ⟨u, by simp, by simp [lastState, hnil]⟩
    · exact ⟨w, by simp [hw], by simpa [lastState] using h⟩

/-- The comment last stored after two runs of updates. -/
theorem lastState_append (pre post : List (Comment × Nat)) :
    ∀ c0 : Comment, lastState c0 (pre ++ post) = lastState (lastState c0 pre) post := by
  induction pre with
  | nil => intro c0; rfl
  | cons u rest ih => intro c0; simpa [lastState] using ih u.1

/-- The life of a comment with a fresh id: `List` returns the Create revision,
the Update revisions in order and the Delete revision, and nothing else. -/
theorem lifecycle_list (db : Store) (c0 : Comment) (i0 : Nat) (updates : List (Comment × Nat))
    (d : Nat) (hcur : db.find c0.ID = none) (hrev : RevisionRepository.List db c0.ID = [])
    (hid : ∀ u ∈ updates, u.1.ID = c0.ID) :
    ∃ db2, lifecycle db c0 i0 updates d = some db2 ∧
      RevisionRepository.List db2 c0.ID =
        ⟨.RevisionTypeCreate, c0.ID, c0.ParentID, some c0.Body, some c0.Markup,
            c0.ParentCommentID, i0⟩ ::
          updates.map (fun u =>
            ⟨.RevisionTypeUpdate, c0.ID, u.1.ParentID, some u.1.Body, some u.1.Markup,
              u.1.ParentCommentID, u.2⟩) ++
          [⟨.RevisionTypeDelete, c0.ID, (lastState c0 updates).ParentID, none, none,
            (lastState c0 updates).ParentCommentID, d⟩] := by
  obtain ⟨db2, h1, h2⟩ := lifecycle_spec db c0 i0 updates d hcur hid
  refine ⟨db2, h1, ?_⟩
  simp only [RevisionRepository.List] at hrev ⊢
  rw [h2, List.filter_append, hrev, List.nil_append]
  apply List.filter_eq_self.mpr
  intro r hr
  simp only [List.mem_cons, List.mem_append, List.mem_map, List.not_mem_nil, or_false] at hr
  rcases hr with (rfl | ⟨u, _, rfl⟩) | rfl <;> simp

/-- C12: a comment with a fresh id is created with body B0/markup M0 by I0,
saved `n` times (the k-th save with body Bk/markup Mk by Jk, same id and
parent), and deleted by D.  The run succeeds and `List(commentID)` returns
exactly `n + 2` revisions, oldest first: the Create revision with B0/M0/I0, the
`n` Update revisions in order with Bk/Mk/Jk, and the Delete revision with no
body, no markup and modifier D; each carries the comment's id and parent id. -/
theorem revision_history (db : Store) (c0 : Comment) (i0 : Nat)
    (updates : List (Comment × Nat)) (d : Nat)
    (hcur : db.find c0.ID = none) (hrev : RevisionRepository.List db c0.ID = [])
    (hid : ∀ u ∈ updates, u.1.ID = c0.ID) (hpar : ∀ u ∈ updates, u.1.ParentID = c0.ParentID) :
    ∃ db2, lifecycle db c0 i0 updates d = some db2 ∧
      RevisionRepository.List db2 c0.ID =
        ⟨.RevisionTypeCreate, c0.ID, c0.ParentID, some c0.Body, some c0.Markup,
            c0.ParentCommentID, i0⟩ ::
          updates.map (fun u =>
            ⟨.RevisionTypeUpdate, c0.ID, c0.ParentID, some u.1.Body, some u.1.Markup,
              u.1.ParentCommentID, u.2⟩) ++
          [⟨.RevisionTypeDelete, c0.ID, c0.ParentID, none, none,
            (lastState c0 updates).ParentCommentID, d⟩] ∧
      (RevisionRepository.List db2 c0.ID).length = updates.length + 2 := by
  obtain ⟨db2, h1, h2⟩ := lifecycle_list db c0 i0 updates d hcur hrev hid
  have hlast : (lastState c0 updates).ParentID = c0.ParentID := by
    rcases lastState_cases updates c0 with ⟨_, h⟩ | ⟨u, hu, h⟩
    · rw [h]
    · rw [h]; exact hpar u hu
  have hmap : updates.map (fun u =>
        (⟨.RevisionTypeUpdate, c0.ID, u.1.ParentID, some u.1.Body, some u.1.Markup,
          u.1.ParentCommentID, u.2⟩ : Revision)) =
      updates.map (fun u =>
        ⟨.RevisionTypeUpdate, c0.ID, c0.ParentID, some u.1.Body, some u.1.Markup,
          u.1.ParentCommentID, u.2⟩) := by
    apply List.map_congr_left
    intro u hu
    rw [hpar u hu]
  rw [hmap, hlast] at h2
  refine ⟨db2, h1, h2, ?_⟩
  rw [h2]
  simp

/-- C12, witness: the run of the test: created with Markdown body by identity
100, saved twice by identity 101, deleted by identity 102; four revisions. -/
theorem revision_history_witness :
    ∃ db2, lifecycle ⟨[], []⟩ ⟨1, 10, "B0", "Markdown", none⟩ 100
        [(⟨1, 10, "Updated body", "PlainText", none⟩, 101),
          (⟨1, 10, "Updated body2", "Markdown", none⟩, 101)] 102 = some db2 ∧
      RevisionRepository.List db2 1 =
        [⟨.RevisionTypeCreate, 1, 10, some "B0", some "Markdown", none, 100⟩,
          ⟨.RevisionTypeUpdate, 1, 10, some "Updated body", some "PlainText", none, 101⟩,
          ⟨.RevisionTypeUpdate, 1, 10, some "Updated body2", some "Markdown", none, 101⟩,
          ⟨.RevisionTypeDelete, 1, 10, none, none, none, 102⟩] ∧
      (RevisionRepository.List db2 1).length = 4 :=
  revision_history ⟨[], []⟩ ⟨1, 10, "B0", "Markdown", none⟩ 100
    [(⟨1, 10, "Updated body", "PlainText", none⟩, 101),
      (⟨1, 10, "Updated body2", "Markdown", none⟩, 101)] 102 rfl rfl
    (by intro u hu; simp at hu; rcases hu with rfl | rfl <;> rfl)
    (by intro u hu; simp at hu; rcases hu with rfl | rfl <;> rfl)

/-- C13: in the life of a comment with a fresh id, the revisions returned by
`List` carry, in order, the parent-comment reference of the comment created, of
each comment saved, and of the comment last stored (the Delete revision).  So
once the saves carry a parent comment `P`, every revision from the first such
save on, the Delete revision included, has `CommentParentCommentID = P`; and
when the comment never has a parent comment, every revision has a null
`CommentParentCommentID`. -/
theorem revision_parent_comment (db : Store) (c0 : Comment) (i0 : Nat)
    (updates : List (Comment × Nat)) (d : Nat)
    (hcur : db.find c0.ID = none) (hrev : RevisionRepository.List db c0.ID = [])
    (hid : ∀ u ∈ updates, u.1.ID = c0.ID) :
    ∃ db2, lifecycle db c0 i0 updates d = some db2 ∧
      (RevisionRepository.List db2 c0.ID).map (fun r => r.CommentParentCommentID) =
        c0.ParentCommentID :: updates.map (fun u => u.1.ParentCommentID) ++
          [(lastState c0 updates).ParentCommentID] ∧
      (∀ (pre post : List (Comment × Nat)) (P : Nat), updates = pre ++ post → post ≠ [] →
        (∀ u ∈ post, u.1.ParentCommentID = some P) →
        ∀ r ∈ (RevisionRepository.List db2 c0.ID).drop (pre.length + 1),
          r.CommentParentCommentID = some P) ∧
      (c0.ParentCommentID = none → (∀ u ∈ updates, u.1.ParentCommentID = none) →
        ∀ r ∈ RevisionRepository.List db2 c0.ID, r.CommentParentCommentID = none) := by
  obtain ⟨db2, h1, h2⟩ := lifecycle_list db c0 i0 updates d hcur hrev hid
  refine ⟨db2, h1, ?_, ?_, ?_⟩
  · rw [h2]
    simp [Function.comp_def]
  · intro pre post P hup hne hP r hr
    have hlast : (lastState c0 updates).ParentCommentID = some P := by
      rw [hup, lastState_append]
      rcases lastState_cases post (lastState c0 pre) with ⟨hnil, _⟩ | ⟨u, hu, h⟩
      · exact absurd hnil hne
      · rw [h]; exact hP u hu
    have hlen : pre.length = (pre.map (fun u : Comment × Nat =>
        (⟨.RevisionTypeUpdate, c0.ID, u.1.ParentID, some u.1.Body, some u.1.Markup,
          u.1.ParentCommentID, u.2⟩ : Revision))).length := by
      simp
    rw [h2, hup, List.cons_append, List.drop_succ_cons, List.map_append, List.append_assoc,
      hlen, List.drop_left] at hr
    simp only [List.mem_cons, List.mem_append, List.mem_map, List.not_mem_nil, or_false] at hr
    rcases hr with ⟨u, hu, rfl⟩ | rfl
    · exact hP u hu
    · rw [← hup]; exact hlast
  · intro h0 hnone r hr
    have hlast : (lastState c0 updates).ParentCommentID = none := by
      rcases lastState_cases updates c0 with ⟨_, h⟩ | ⟨u, hu, h⟩
      · rw [h]; exact h0
      · rw [h]; exact hnone u hu
    rw [h2] at hr
    simp only [List.mem_cons, List.mem_append, List.mem_map, List.not_mem_nil, or_false] at hr
    rcases hr with (rfl | ⟨u, hu, rfl⟩) | rfl
    · exact h0
    · exact hnone u hu
    · exact hlast

/-- C13, witness: the run of the child-comment test: comment 2 is created
without parent comment, saved twice with parent comment 1, and deleted; its
revisions carry no parent comment, then comment 1 three times. -/
theorem revision_parent_comment_witness :
    ∃ db2, lifecycle
        ⟨[⟨1, 10, "P", "Markdown", none⟩],
          [⟨.RevisionTypeCreate, 1, 10, some "P", some "Markdown", none, 100⟩]⟩
        ⟨2, 10, "B", "Markdown", none⟩ 100
        [(⟨2, 10, "Updated body", "PlainText", some 1⟩, 101),
          (⟨2, 10, "Updated body2", "Markdown", some 1⟩, 101)] 102 = some db2 ∧
      (RevisionRepository.List db2 2).map (fun r => r.CommentParentCommentID) =
        [none, some 1, some 1, some 1] :=
  let ⟨db2, h1, h2, _⟩ := revision_parent_comment
    ⟨[⟨1, 10, "P", "Markdown", none⟩],
      [⟨.RevisionTypeCreate, 1, 10, some "P", some "Markdown", none, 100⟩]⟩
    ⟨2, 10, "B", "Markdown", none⟩ 100
    [(⟨2, 10, "Updated body", "PlainText", some 1⟩, 101),
      (⟨2, 10, "Updated body2", "Markdown", some 1⟩, 101)] 102 rfl rfl
    (by intro u hu; simp at hu; rcases hu with rfl | rfl <;> rfl)
  ⟨db2, h1, h2⟩

end comment

namespace Workitem

/-! ## Aborts -/

/-- C21 (the failing inputs): each of the five operations has inputs on which
it does not return.  `ConvertToModel` of Kind=Instant aborts on a struct that
is not a `time.Time`; `ConvertFromModel` of Kind=Markup and of Kind=Codebase
aborts on a map that is not a `map[string]interface{}`; `ConvertToStringSlice`
of Kind=String and of Kind=Boolean aborts on a value of a defined string or
boolean type; `ConvertToModelWithType` aborts when the target's
`ConvertToModel` does; `Equal` aborts on two defaults that are maps. -/
theorem operations_abort (f : Formatter) (c : Collab) (d d2 : Value) (k : Kind)
    (cb : Content) (m : GoMap) (name : String) (cmp : Bool) (data : Nat) :
    SimpleType.ConvertToModel c ⟨.KindInstant, d⟩ (.codebase cb) = .panic ∧
      SimpleType.ConvertFromModel c ⟨.KindMarkup, d⟩ (.other .Map name cmp data) = .panic ∧
      SimpleType.ConvertFromModel c ⟨.KindCodebase, d⟩ (.other .Map name cmp data) = .panic ∧
      SimpleType.ConvertToStringSlice f c ⟨.KindString, d⟩ (.other .String name cmp data) =
        .panic ∧
      SimpleType.ConvertToStringSlice f c ⟨.KindBoolean, d⟩ (.other .Bool name cmp data) =
        .panic ∧
      SimpleType.ConvertToModelWithType ⟨k, d⟩ (SimpleType.toFieldType c ⟨.KindInstant, d2⟩)
          (.codebase cb) = .panic ∧
      SimpleType.Equal ⟨k, .ifaceMap m⟩ (.simpleType ⟨k, .ifaceMap m⟩) = none :=
  ⟨rfl, rfl, rfl, rfl, rfl, rfl, rfl⟩

/-- The conversion `AnyToUUID` always returns. -/
theorem anyToUUID_returns (c : Collab) (v : Value) : AnyToUUID c v ≠ .panic := by
  cases v <;> simp [AnyToUUID]
  split <;> simp

/-- Aborts of `ConvertToModel`, all of them: it fails to return exactly for
Kind=Instant on a struct that is not a `time.Time`, for Kind=URL on a value of
a defined string type, and for Kind=Markup on a `map[string]interface{}` for
which the collaborator gives no markup content. -/
theorem convertToModel_panic_iff (c : Collab) (t : SimpleType) (v : Value) :
    t.ConvertToModel c v = .panic ↔
      (t.Kind = .KindInstant ∧ v.reflectKind = .Struct ∧ ∀ ts, v ≠ .time ts) ∨
      (t.Kind = .KindURL ∧ v.reflectKind = .String ∧ ∀ s, v ≠ .str s) ∨
      (t.Kind = .KindMarkup ∧ (∃ m, v = .ifaceMap m) ∧ c.NewMarkupContentFromValue v = none) := by
  obtain ⟨k, d⟩ := t
  cases k
  case KindRemoteTracker =>
    have hu := anyToUUID_returns c v
    cases v <;> simp [SimpleType.ConvertToModel, SimpleType.GetKind, Value.isNil] <;>
      split <;> simp_all
  all_goals
    cases v <;>
      simp [SimpleType.ConvertToModel, SimpleType.GetKind, Value.isNil, Value.reflectKind,
        convertInteger, convertMarkup, convertCodebase] <;>
      (try split) <;> (try split) <;> simp_all

/-! ## ConvertToModelWithType returns what the target produced -/

/-- C22: if `ConvertToModelWithType(T, v)` succeeds with `r`, then `r` is what
`T.ConvertToModel` returned for `v`, or (for a target of Kind List) for the
one-element sequence `[v]`, or (for a source of Kind List and a target that is
not) for the sole element of `v`; and whenever `T.ConvertToModel(v)` succeeds
the result is what it returned, whatever the source's Kind, so for a
`SimpleType` target nil converts to nil. -/
theorem convertToModelWithType_sound (t : SimpleType) (target : FieldType) (v : Value) :
    (∀ r, t.ConvertToModelWithType target v = .ok r →
        target.ConvertToModel v = .ok r ∨
        (target.GetKind = .KindList ∧ target.ConvertToModel (.ifaceSlice [v]) = .ok r) ∨
        (t.Kind = .KindList ∧ target.GetKind ≠ .KindList ∧
          ∃ x, v = .ifaceSlice [x] ∧ target.ConvertToModel x = .ok r)) ∧
      (∀ r, target.ConvertToModel v = .ok r → t.ConvertToModelWithType target v = .ok r) ∧
      (∀ (c : Collab) (st : SimpleType),
        t.ConvertToModelWithType (st.toFieldType c) .nil = .ok .nil) := by
  refine ⟨?_, ?_, fun c st => rfl⟩
  · intro r h
    simp only [SimpleType.ConvertToModelWithType] at h
    cases h1 : target.ConvertToModel v with
    | ok r1 =>
      rw [h1] at h
      simp at h
      left
      rw [h]
    | panic => rw [h1] at h; simp at h
    | error e1 =>
      rw [h1] at h
      simp only at h
      have hunwrap : unwrapSingle t target v = .ok r →
          t.Kind = .KindList ∧ target.GetKind ≠ .KindList ∧
            ∃ x, v = .ifaceSlice [x] ∧ target.ConvertToModel x = .ok r := by
        intro hu
        simp only [unwrapSingle, SimpleType.GetKind] at hu
        split at hu
        · rename_i hk
          refine ⟨hk.1, hk.2, ?_⟩
          split at hu
          · rename_i ifArr
            split at hu
            · rename_i x
              refine ⟨x, rfl, ?_⟩
              cases h3 : target.ConvertToModel x with
              | ok r3 => rw [h3] at hu; simp at hu; rw [hu]
              | panic => rw [h3] at hu; simp at hu
              | error e3 => rw [h3] at hu; simp [convertFailed] at hu
            · simp [convertFailed] at hu
          · simp at hu
        · simp [convertFailed] at hu
      by_cases hk : target.GetKind = .KindList
      · rw [if_pos hk] at h
        cases h2 : target.ConvertToModel (.ifaceSlice [v]) with
        | ok r2 =>
          rw [h2] at h
          simp at h
          right; left
          exact ⟨hk, by rw [h]⟩
        | panic => rw [h2] at h; simp at h
        | error e2 =>
          rw [h2] at h
          simp only at h
          right; right
          exact hunwrap h
      · rw [if_neg hk] at h
        right; right
        exact hunwrap h
  · intro r h
    simp [SimpleType.ConvertToModelWithType, h]

end Workitem
